import Mathlib

/-!
Shallow embedding of the tree-sprites simulation core (src/src/game/) in Lean 4.

Translation conventions:
* Rust `f32` values are modelled as exact rationals (`ℚ`); the algorithms use
  only field operations, comparisons, `floor` and `clamp` on them, except for
  `sqrt`, `cos`, `sin` and degree-to-radian conversion, which are passed in
  explicitly as a `FloatOps` record of functions.
* Rust `usize`/`u8`/`i32` counters and indices are modelled as `Nat`/`Int`.
  Casts `i32 as usize` appearing in the source are modelled with `Int.toNat`;
  every theorem below that depends on such a cast carries in-bounds hypotheses
  under which the two semantics agree.
* Fixed-size arrays (`[Option<Tree>; 9000]`, `[u8; 900]`, ...) are modelled as
  total functions from `Nat`, mutated with `Function.update`.
* `Option::unwrap` on a slot that the source guarantees to be occupied is
  modelled by matching on the option and leaving the state unchanged in the
  (unreachable in the source) `none` case.
* The thread RNG is modelled as an oracle record plus a draw counter that is
  advanced on every draw, threaded explicitly through the tick.
-/

namespace TreeSprites

/-- GRID_DIM from game_state.rs. -/
def GRID_DIM : Nat := 30

/-- GRID_SIZE = GRID_DIM * GRID_DIM. -/
def GRID_SIZE : Nat := GRID_DIM * GRID_DIM

/-- NUM_TREES_PER_TILE from game_state.rs. -/
def NUM_TREES_PER_TILE : Nat := 10

/-- MAX_NUM_TREES = GRID_SIZE * NUM_TREES_PER_TILE. -/
def MAX_NUM_TREES : Nat := GRID_SIZE * NUM_TREES_PER_TILE

/-- Rust f32::clamp(x, lo, hi) (for lo <= hi). -/
def clampQ (x lo hi : ℚ) : ℚ := max lo (min x hi)

/-- smoothstep from game_state.rs: clamp then quintic polynomial. -/
def smoothstep (mn mx x : ℚ) : ℚ :=
  let t := clampQ ((x - mn) / (mx - mn)) 0 1
  t * t * t * (t * (t * 6 - 15) + 10)

/-- GroundCover enum. -/
inductive GroundCover where
  | Grass
  | Dirt
deriving DecidableEq, Repr

/-- SoilType enum. -/
inductive SoilType where
  | Stony
  | Normal
deriving DecidableEq, Repr

/-- TreeSpecies enum from trees.rs. -/
inductive TreeSpecies where
  | Ash
  | Fir
  | CottonWood
deriving DecidableEq, Repr

/-- TreeGrowthStage enum from trees.rs. -/
inductive TreeGrowthStage where
  | Sprout
  | Seedling
  | Sapling
  | Mature
  | Old
  | Decline
  | Snag
  | Stump
deriving DecidableEq, Repr

/-- TreeGrowthStage::next. -/
def TreeGrowthStage.next : TreeGrowthStage → TreeGrowthStage
  | .Sprout => .Seedling
  | .Seedling => .Sapling
  | .Sapling => .Mature
  | .Mature => .Old
  | .Old => .Decline
  | .Decline => .Snag
  | .Snag => .Stump
  | .Stump => .Stump

/-- SeedRate struct from trees.rs. -/
structure SeedRate where
  average : ℚ
  variation : ℚ
deriving DecidableEq, Repr

/-- TreeSpecies::seed_radius. -/
def TreeSpecies.seed_radius : TreeSpecies → ℚ × ℚ
  | .Ash => (2/5, 9/2)
  | .Fir => (3/10, 3/2)
  | .CottonWood => (3/5, 6)

/-- TreeSpecies::seed_success_rate. -/
def TreeSpecies.seed_success_rate : TreeSpecies → SeedRate
  | .Ash => ⟨4, 1⟩
  | .Fir => ⟨3, 1⟩
  | .CottonWood => ⟨16, 3⟩

/-- TreeSpecies::soil_preference. -/
def TreeSpecies.soil_preference : TreeSpecies → SoilType
  | .Ash => .Normal
  | .Fir => .Stony
  | .CottonWood => .Normal

/-- TreeSpecies::shadow_radius. -/
def TreeSpecies.shadow_radius : TreeSpecies → TreeGrowthStage → ℚ
  | .Ash, .Sapling => 11/20
  | .Ash, .Mature => 9/10
  | .Ash, .Old => 4/5
  | .Ash, .Decline => 11/20
  | .Ash, _ => 0
  | .Fir, .Seedling => 1/4
  | .Fir, .Sapling => 11/20
  | .Fir, .Mature => 7/10
  | .Fir, .Old => 13/20
  | .Fir, .Decline => 11/20
  | .Fir, _ => 0
  | .CottonWood, .Seedling => 1/4
  | .CottonWood, .Sapling => 7/10
  | .CottonWood, .Mature => 9/10
  | .CottonWood, .Old => 9/10
  | .CottonWood, .Decline => 4/5
  | .CottonWood, _ => 0

/-- TileCoordinate struct from position.rs (i32 pair as Int). -/
structure TileCoordinate where
  x : Int
  y : Int
deriving DecidableEq, Repr

/-- TileOffset = Vec2 of f32, from position.rs / vector.rs. -/
structure TileOffset where
  x : ℚ
  y : ℚ
deriving DecidableEq, Repr

/-- WorldPosition struct from position.rs. -/
structure WorldPosition where
  coord : TileCoordinate
  offset : TileOffset
deriving DecidableEq, Repr

/-- WorldPosition::normalize: floor-carry each fractional component into the tile coordinate. -/
def WorldPosition.normalize (p : WorldPosition) : WorldPosition :=
  let floor_x := ⌊p.offset.x⌋
  let floor_y := ⌊p.offset.y⌋
  { coord := { x := p.coord.x + floor_x, y := p.coord.y + floor_y },
    offset := { x := p.offset.x - floor_x, y := p.offset.y - floor_y } }

/-- impl Sub for WorldPosition. -/
def WorldPosition.sub (a b : WorldPosition) : WorldPosition :=
  WorldPosition.normalize
    { coord := { x := a.coord.x - b.coord.x, y := a.coord.y - b.coord.y },
      offset := { x := a.offset.x - b.offset.x, y := a.offset.y - b.offset.y } }

/-- impl Add for WorldPosition. -/
def WorldPosition.add (a b : WorldPosition) : WorldPosition :=
  WorldPosition.normalize
    { coord := { x := a.coord.x + b.coord.x, y := a.coord.y + b.coord.y },
      offset := { x := a.offset.x + b.offset.x, y := a.offset.y + b.offset.y } }

/-- impl Sub of TileOffset for WorldPosition. -/
def WorldPosition.subOff (a : WorldPosition) (rhs : TileOffset) : WorldPosition :=
  WorldPosition.normalize
    { coord := a.coord,
      offset := { x := a.offset.x - rhs.x, y := a.offset.y - rhs.y } }

/-- impl Add of TileOffset for WorldPosition. -/
def WorldPosition.addOff (a : WorldPosition) (rhs : TileOffset) : WorldPosition :=
  WorldPosition.normalize
    { coord := a.coord,
      offset := { x := a.offset.x + rhs.x, y := a.offset.y + rhs.y } }

/-- WorldPosition::distance_sq. -/
def WorldPosition.distance_sq (a b : WorldPosition) : ℚ :=
  let d := WorldPosition.sub b a
  let dx := (d.coord.x : ℚ) + d.offset.x
  let dy := (d.coord.y : ℚ) + d.offset.y
  dx * dx + dy * dy

/-- Tree struct from trees.rs. -/
structure Tree where
  position : WorldPosition
  species : TreeSpecies
  stage : TreeGrowthStage
  growth : ℚ
  base_growth_speed : ℚ
  growth_target : Option ℚ
  seed_timer : ℚ
  shade_factor : ℚ
deriving DecidableEq, Repr

/-- Tree::growth_required_for_next_stage (species and stage lookup table). -/
def Tree.growth_required_for_next_stage (t : Tree) : Option ℚ :=
  match t.species, t.stage with
  | .Ash, .Sprout => some 1
  | .Ash, .Seedling => some 5
  | .Ash, .Sapling => some 20
  | .Ash, .Mature => some 45
  | .Ash, .Old => some 40
  | .Ash, .Decline => some 20
  | .Ash, .Snag => some 10
  | .Fir, .Sprout => some 5
  | .Fir, .Seedling => some 15
  | .Fir, .Sapling => some 20
  | .Fir, .Mature => some 60
  | .Fir, .Old => some 60
  | .Fir, .Decline => some 20
  | .Fir, .Snag => some 10
  | .CottonWood, .Sprout => some 2
  | .CottonWood, .Seedling => some 3
  | .CottonWood, .Sapling => some 10
  | .CottonWood, .Mature => some 80
  | .CottonWood, .Old => some 75
  | .CottonWood, .Decline => some 30
  | .CottonWood, .Snag => some 15
  | _, .Stump => none

/-- Tree::new. -/
def Tree.new (species : TreeSpecies) (position : WorldPosition) : Tree :=
  let result : Tree :=
    { position := position
      species := species
      stage := .Sprout
      growth := 0
      base_growth_speed := 1
      growth_target := none
      seed_timer := 1
      shade_factor := 1 }
  { result with growth_target := result.growth_required_for_next_stage }

/-- Tree::is_alive. -/
def Tree.is_alive (t : Tree) : Bool :=
  t.stage ≠ TreeGrowthStage.Snag ∧ t.stage ≠ TreeGrowthStage.Stump

/-- Tree::grow: returns the mutated tree; the Rust return value is the stage of that tree. -/
def Tree.grow (t : Tree) (dt_s : ℚ) : Tree :=
  let t1 :=
    match t.growth_target with
    | some target =>
      let growth_amt := t.base_growth_speed * dt_s
      let t' := { t with growth := t.growth + growth_amt }
      if t'.growth > target then
        let t'' := { t' with stage := t'.stage.next }
        { t'' with
          growth_target :=
            match t''.growth_required_for_next_stage with
            | some new_required_growth => some (target + new_required_growth)
            | none => none }
      else t'
    | none => t
  match t1.stage with
  | .Mature | .Old | .Decline => { t1 with seed_timer := t1.seed_timer - dt_s }
  | _ => t1

/-- Numeric primitives of f32 that have no exact rational counterpart
(sqrt, trigonometry, degree-to-radian conversion); the simulation
functions take them as explicit parameters. -/
structure FloatOps where
  sqrt : ℚ → ℚ
  cos : ℚ → ℚ
  sin : ℚ → ℚ
  toRadians : ℚ → ℚ

/-- WorldPosition::distance, with the sqrt primitive passed explicitly. -/
def WorldPosition.distance (ops : FloatOps) (a b : WorldPosition) : ℚ :=
  ops.sqrt (a.distance_sq b)

/-- GameState: the simulation-core fields of the GameState struct
(camera, pause flag, debug flags and timers are rendering or input
plumbing, out of the claims' scope). -/
structure GameState where
  tiles : Nat → GroundCover × SoilType
  tile_light_amt : Nat → ℚ
  count_trees : Nat
  per_tile_tree_count : Nat → Nat
  trees : Nat → Option Tree

/-- tile_index macro: x as usize + y as usize * GRID_DIM. -/
def tile_index (x y : Int) : Nat := x.toNat + y.toNat * GRID_DIM

/-- tree_slot_index macro: tile * NUM_TREES_PER_TILE + t. -/
def tree_slot_index (tile t : Nat) : Nat := tile * NUM_TREES_PER_TILE + t

/-- Write a new tree value into an (occupied) slot; the occupancy pattern
is preserved because the source only does this through an unwrapped
mutable borrow of an occupied slot. -/
def GameState.modifyTree (s : GameState) (i : Nat) (f : Tree → Tree) : GameState :=
  { s with trees := Function.update s.trees i ((s.trees i).map f) }

/-- Row-major slot traversal order of TreeRegionIterator::next (y outer,
x inner, in-tile slot index fastest), over the inclusive cell box. -/
def regionSlotIndices (min_x min_y max_x max_y : Nat) : List Nat :=
  (List.range' min_y (max_y + 1 - min_y)).flatMap fun y =>
    (List.range' min_x (max_x + 1 - min_x)).flatMap fun x =>
      (List.range NUM_TREES_PER_TILE).map fun t =>
        tree_slot_index (x + y * GRID_DIM) t

/-- TreeRegionIterator: yields the occupied slots of the box in traversal order. -/
def iterTreesInRegion (trees : Nat → Option Tree)
    (min_x min_y max_x max_y : Nat) : List (Nat × Tree) :=
  (regionSlotIndices min_x min_y max_x max_y).filterMap fun i =>
    (trees i).map fun t => (i, t)

/-- GameState::iter_trees_in_radius: clamp the center-radius box to the
grid, iterate the region, filter by squared distance to the center. -/
def GameState.iter_trees_in_radius (s : GameState) (pos : WorldPosition)
    (radius : ℚ) : List (Nat × Tree) :=
  let radius_offset : TileOffset := ⟨radius, radius⟩
  let mn := pos.subOff radius_offset
  let min_x := (max mn.coord.x 0).toNat
  let min_y := (max mn.coord.y 0).toNat
  let mx := pos.addOff radius_offset
  let max_x := (min mx.coord.x (GRID_DIM - 1 : Nat)).toNat
  let max_y := (min mx.coord.y (GRID_DIM - 1 : Nat)).toNat
  (iterTreesInRegion s.trees min_x min_y max_x max_y).filter fun it =>
    decide (it.2.position.distance_sq pos ≤ radius * radius)

/-- One neighbor's contribution in the accumulation loop of
GameState::set_shade_from_surrounding_trees: skip the target slot itself
and neighbors with non-positive shadow radius, multiply in one occlusion
factor when the neighbor's shadow reaches the target. -/
def shadeStep (tree_slot_index : Nat) (tree_pos : WorldPosition) (ops : FloatOps)
    (acc : ℚ) (nt : Nat × Tree) : ℚ :=
  if nt.1 = tree_slot_index then acc
  else
    let near_tree_shad_rad := nt.2.species.shadow_radius nt.2.stage
    let dist := tree_pos.distance ops nt.2.position
    if near_tree_shad_rad ≤ 0 then acc
    else if dist ≤ near_tree_shad_rad then
      acc * (1 - smoothstep near_tree_shad_rad 0 dist)
    else acc

def computeShadeFactor (s : GameState) (tree_slot_index : Nat)
    (tree_pos : WorldPosition) (ops : FloatOps) : ℚ :=
  (s.iter_trees_in_radius tree_pos 1).foldl (shadeStep tree_slot_index tree_pos ops) 1

/-- GameState::set_shade_from_surrounding_trees: from-scratch multiplicative
recompute of the shade factor of the tree in the given slot. -/
def GameState.set_shade_from_surrounding_trees (s : GameState)
    (tree_slot_index : Nat) (ops : FloatOps) : GameState :=
  match s.trees tree_slot_index with
  | none => s
  | some t =>
    s.modifyTree tree_slot_index
      (fun tr => { tr with
        shade_factor := computeShadeFactor s tree_slot_index t.position ops })

/-- GameState::update_shade_for_surrounding_trees: incremental divide-out /
multiply-in of a tree's shadow on its neighbors after a stage change. -/
def GameState.update_shade_for_surrounding_trees (s : GameState)
    (tree_slot_index : Nat) (previous_stage : TreeGrowthStage)
    (ops : FloatOps) : GameState :=
  match s.trees tree_slot_index with
  | none => s
  | some t =>
    let tree_pos := t.position
    let old_shadow_radius := t.species.shadow_radius previous_stage
    let new_shadow_radius := t.species.shadow_radius t.stage
    let max_shadow_radius := max old_shadow_radius new_shadow_radius
    (s.iter_trees_in_radius tree_pos max_shadow_radius).foldl
      (fun st nt =>
        if nt.1 = tree_slot_index then st
        else
          let dist := tree_pos.distance ops nt.2.position
          let st1 :=
            if dist ≤ old_shadow_radius ∧ old_shadow_radius > 0 then
              st.modifyTree nt.1 (fun u =>
                { u with shade_factor :=
                    u.shade_factor / (1 - smoothstep old_shadow_radius 0 dist) })
            else st
          if dist ≤ new_shadow_radius ∧ new_shadow_radius > 0 then
            st1.modifyTree nt.1 (fun u =>
              { u with shade_factor :=
                  u.shade_factor * (1 - smoothstep new_shadow_radius 0 dist) })
          else st1)
      s

/-- GameState::plant_tree: append into the tile bucket if it has room,
then recompute the new tree's shade; silently no-op when the bucket is full. -/
def GameState.plant_tree (s : GameState) (pos : WorldPosition)
    (species : TreeSpecies) (ops : FloatOps) : GameState :=
  let ti := tile_index pos.coord.x pos.coord.y
  let num_trees_on_tile := s.per_tile_tree_count ti
  if num_trees_on_tile < NUM_TREES_PER_TILE then
    let si := tree_slot_index ti num_trees_on_tile
    let s1 : GameState :=
      { s with
        trees := Function.update s.trees si (some (Tree.new species pos))
        per_tile_tree_count := Function.update s.per_tile_tree_count ti (num_trees_on_tile + 1)
        count_trees := s.count_trees + 1 }
    s1.set_shade_from_surrounding_trees si ops
  else s

/-- GameState::delete_tree: clear the slot; neither the per-tile count nor
count_trees is touched (packing restores the per-tile count later). -/
def GameState.delete_tree (s : GameState) (tree_slot_index : Nat) : GameState :=
  { s with trees := Function.update s.trees tree_slot_index none }

/-- GameState::kill_tree: delete young trees outright, turn Sapling..Decline
into a Snag with a fresh decay growth target, leave dead trees alone. -/
def GameState.kill_tree (s : GameState) (tree_slot_index : Nat) : GameState :=
  match s.trees tree_slot_index with
  | none => s
  | some t =>
    match t.stage with
    | .Sprout | .Seedling => s.delete_tree tree_slot_index
    | .Sapling | .Mature | .Old | .Decline =>
      let t1 := { t with stage := TreeGrowthStage.Snag }
      let t2 := { t1 with growth_target := t1.growth_required_for_next_stage }
      { s with trees := Function.update s.trees tree_slot_index (some t2) }
    | .Snag | .Stump => s

/-- Swap two indices of a bucket function (slice::swap). -/
def swapSlots (f : Nat → Option Tree) (i j : Nat) : Nat → Option Tree :=
  fun k => if k = i then f j else if k = j then f i else f k

/-- The two-pointer compaction loop of GameState::pack_trees, with fuel;
fuel NUM_TREES_PER_TILE suffices since read advances every iteration. -/
def packLoop : Nat → (Nat → Option Tree) → Nat → Nat → Nat → (Nat → Option Tree) × Nat
  | 0, slots, _, _, write_index => (slots, write_index)
  | fuel + 1, slots, count_trees, read_index, write_index =>
    if write_index < count_trees ∧ read_index < NUM_TREES_PER_TILE then
      let slots1 :=
        if read_index ≠ write_index ∧ (slots read_index).isSome then
          swapSlots slots read_index write_index
        else slots
      let write1 := if (slots1 write_index).isSome then write_index + 1 else write_index
      packLoop fuel slots1 count_trees (read_index + 1) write1
    else (slots, write_index)

/-- GameState::pack_trees: compact one tile's bucket and rewrite its count. -/
def GameState.pack_trees (s : GameState) (ti : Nat) : GameState :=
  let count_trees := s.per_tile_tree_count ti
  let bucket : Nat → Option Tree := fun j => s.trees (tree_slot_index ti j)
  let packed := packLoop NUM_TREES_PER_TILE bucket count_trees 0 0
  { s with
    trees := fun i =>
      if ti * NUM_TREES_PER_TILE ≤ i ∧ i < ti * NUM_TREES_PER_TILE + NUM_TREES_PER_TILE then
        packed.1 (i - ti * NUM_TREES_PER_TILE)
      else s.trees i
    per_tile_tree_count := Function.update s.per_tile_tree_count ti packed.2 }

/-- Thread RNG modelled as oracles consulted at an ever-advancing draw
counter: chance k n d answers rng.gen_ratio(n, d) at draw k, rangeAt k lo hi
answers rng.gen_range(lo..hi) (or lo..=hi) at draw k. -/
structure RngState where
  ctr : Nat
  chance : Nat → Nat → Nat → Bool
  rangeAt : Nat → ℚ → ℚ → ℚ

/-- Draw rng.gen_ratio(n, d). -/
def RngState.genChance (r : RngState) (n d : Nat) : Bool × RngState :=
  (r.chance r.ctr n d, { r with ctr := r.ctr + 1 })

/-- Draw rng.gen_range(lo..hi). -/
def RngState.genRange (r : RngState) (lo hi : ℚ) : ℚ × RngState :=
  (r.rangeAt r.ctr lo hi, { r with ctr := r.ctr + 1 })

/-- The deferred-event enum local to GameState::update_trees. -/
inductive Event where
  | plant (pos : WorldPosition) (species : TreeSpecies)
  | kill (tree_slot_index : Nat)
  | delete (tree_slot_index : Nat)
deriving DecidableEq, Repr

/-- push_event macro: append unless the fixed event buffer is full. -/
def pushEvent (evs : List Event) (e : Event) : List Event :=
  if evs.length < MAX_NUM_TREES then evs ++ [e] else evs

/-- Accumulator threaded through the scan phase of update_trees. -/
structure ScanAcc where
  s : GameState
  events : List Event
  rng : RngState

/-- Truncating f32-to-u32 cast of a nonnegative value ((..) as u32). -/
def ratToU32 (q : ℚ) : Nat := (⌊q⌋).toNat

/-- One Bernoulli seeding trial of the Mature/Old/Decline branch of the
scan: on success draw an angle and radius, emit a Plant event if the
landing tile is inside the grid, and redraw the parent's seed timer. -/
def seedTrial (ops : FloatOps) (pos : WorldPosition) (species : TreeSpecies)
    (denominator : Nat) (slotIdx : Nat) (acc : ScanAcc) : ScanAcc :=
  let d1 := acc.rng.genChance 1 denominator
  if d1.1 then
    let minmax := species.seed_radius
    let d2 := d1.2.genRange 0 360
    let angle := ops.toRadians d2.1
    let d3 := d2.2.genRange minmax.1 minmax.2
    let radius := d3.1
    let x := radius * ops.cos angle
    let y := radius * ops.sin angle
    let plant_position := pos.addOff ⟨x, y⟩
    let evs :=
      if plant_position.coord.x < (GRID_DIM : Int) ∧ 0 ≤ plant_position.coord.x ∧
         plant_position.coord.y < (GRID_DIM : Int) ∧ 0 ≤ plant_position.coord.y then
        pushEvent acc.events (Event.plant plant_position species)
      else acc.events
    let seed_rate := species.seed_success_rate
    let d4 := d3.2.genRange (seed_rate.average - seed_rate.variation)
                            (seed_rate.average + seed_rate.variation)
    { s := acc.s.modifyTree slotIdx (fun t => { t with seed_timer := d4.1 })
      events := evs
      rng := d4.2 }
  else { acc with rng := d1.2 }

/-- The tail of the scan-loop body after a tree has been grown: write the
grown tree back, propagate the shade change on a stage transition, then
run the seeding (Mature/Old/Decline) or stump-deletion branch. -/
def scanSlotGrown (ops : FloatOps) (soil_type : SoilType) (slotIdx : Nat)
    (old_grow_stage : TreeGrowthStage) (grown : Tree) (acc : ScanAcc) : ScanAcc :=
  let new_grow_stage := grown.stage
  let s1 := acc.s.modifyTree slotIdx (fun _ => grown)
  let s2 :=
    if old_grow_stage ≠ new_grow_stage then
      s1.update_shade_for_surrounding_trees slotIdx old_grow_stage ops
    else s1
  match s2.trees slotIdx with
  | none => { acc with s := s2 }
  | some tree2 =>
    match new_grow_stage with
    | .Mature | .Old | .Decline =>
      let seed_multiplier : ℚ :=
        match new_grow_stage with
        | .Mature => 1
        | .Old => 1/2
        | .Decline => 1/5
        | _ => 0
      if tree2.seed_timer ≤ 0 then
        let denom0 := ratToU32 (10 * (1 / seed_multiplier))
        let denominator :=
          if soil_type ≠ tree2.species.soil_preference then denom0 * 2 else denom0
        (List.range 3).foldl
          (fun a _ => seedTrial ops tree2.position tree2.species denominator slotIdx a)
          { s := s2, events := acc.events, rng := acc.rng }
      else { s := s2, events := acc.events, rng := acc.rng }
    | .Stump =>
      let d := acc.rng.genChance 1 500
      { s := s2
        events := if d.1 then pushEvent acc.events (Event.delete slotIdx) else acc.events
        rng := d.2 }
    | _ => { s := s2, events := acc.events, rng := acc.rng }

/-- The body of the inner while loop of the scan phase, for one occupied slot. -/
def scanSlot (ops : FloatOps) (dt_s : ℚ) (soil_type : SoilType)
    (slotIdx : Nat) (acc : ScanAcc) : ScanAcc :=
  match acc.s.trees slotIdx with
  | none => acc
  | some tree =>
    let soil_multiplier : ℚ := if soil_type = tree.species.soil_preference then 1 else 2/5
    let growth_multiplier : ℚ :=
      if tree.is_alive then 1 * (tree.shade_factor * soil_multiplier) else 1
    if growth_multiplier ≤ 1/20 then
      { acc with events := pushEvent acc.events (Event.kill slotIdx) }
    else
      scanSlotGrown ops soil_type slotIdx tree.stage
        (tree.grow (dt_s * growth_multiplier)) acc

/-- One tile of the scan phase: the per-tile count and soil type are read
once, then each occupied slot is processed in order. -/
def scanTile (ops : FloatOps) (dt_s : ℚ) (tileIdx : Nat) (acc : ScanAcc) : ScanAcc :=
  let num_trees_on_tile := acc.s.per_tile_tree_count tileIdx
  let soil_type := (acc.s.tiles tileIdx).2
  (List.range num_trees_on_tile).foldl
    (fun a tree_index => scanSlot ops dt_s soil_type (tree_slot_index tileIdx tree_index) a)
    acc

/-- The full scan phase of update_trees over all tiles. -/
def scanPhase (ops : FloatOps) (dt_s : ℚ) (s : GameState) (rng : RngState) : ScanAcc :=
  (List.range GRID_SIZE).foldl (fun a tileIdx => scanTile ops dt_s tileIdx a)
    { s := s, events := [], rng := rng }

/-- Accumulator of the apply phase: state plus the pending-repack tile set
(HashSet modelled as an insertion-ordered duplicate-free list). -/
structure ApplyAcc where
  s : GameState
  repack : List Nat

/-- HashSet::insert. -/
def insertTile (l : List Nat) (t : Nat) : List Nat :=
  if t ∈ l then l else l ++ [t]

/-- Application of one deferred event, in emission order. -/
def applyEvent (ops : FloatOps) (acc : ApplyAcc) : Event → ApplyAcc
  | .plant pos species => { acc with s := acc.s.plant_tree pos species ops }
  | .kill i =>
    { s := acc.s.kill_tree i
      repack := insertTile acc.repack (i / NUM_TREES_PER_TILE) }
  | .delete i =>
    { s := acc.s.delete_tree i
      repack := insertTile acc.repack (i / NUM_TREES_PER_TILE) }

/-- GameState::update_trees: scan phase, deferred event application,
then one pack_trees per registered tile. -/
def GameState.update_trees (s : GameState) (dt_s : ℚ) (rng : RngState)
    (ops : FloatOps) : GameState × RngState :=
  let scanned := scanPhase ops dt_s s rng
  let applied := scanned.events.foldl (applyEvent ops) { s := scanned.s, repack := [] }
  (applied.repack.foldl (fun st ti => st.pack_trees ti) applied.s, scanned.rng)

lemma normalize_offset_bounds (p : WorldPosition) :
    (0 ≤ p.normalize.offset.x ∧ p.normalize.offset.x < 1) ∧
    (0 ≤ p.normalize.offset.y ∧ p.normalize.offset.y < 1) := by
  have hx1 := Int.fract_nonneg p.offset.x
  have hx2 := Int.fract_lt_one p.offset.x
  have hy1 := Int.fract_nonneg p.offset.y
  have hy2 := Int.fract_lt_one p.offset.y
  unfold Int.fract at hx1 hx2 hy1 hy2
  exact ⟨⟨hx1, hx2⟩, ⟨hy1, hy2⟩⟩

lemma normalize_roundtrip (p : WorldPosition) :
    ((p.normalize.coord.x : ℚ) + p.normalize.offset.x = (p.coord.x : ℚ) + p.offset.x) ∧
    ((p.normalize.coord.y : ℚ) + p.normalize.offset.y = (p.coord.y : ℚ) + p.offset.y) := by
  constructor <;>
  · simp [WorldPosition.normalize]
    rw [add_assoc, Int.floor_add_fract]

/-- C7: the result of add/sub of two world positions (and of a world
position and a plain offset) is normalized — both fractional offset
components lie in [0,1) — and normalization preserves the denoted
real-valued position: per axis, tile coordinate plus offset of the result
equals the component-wise sum (resp. difference) of the inputs. -/
theorem C7_world_position_arith_normalized_roundtrip (a b : WorldPosition) (o : TileOffset) :
    ((0 ≤ (a.add b).offset.x ∧ (a.add b).offset.x < 1) ∧
     (0 ≤ (a.add b).offset.y ∧ (a.add b).offset.y < 1) ∧
     ((a.add b).coord.x : ℚ) + (a.add b).offset.x
        = ((a.coord.x : ℚ) + a.offset.x) + ((b.coord.x : ℚ) + b.offset.x) ∧
     ((a.add b).coord.y : ℚ) + (a.add b).offset.y
        = ((a.coord.y : ℚ) + a.offset.y) + ((b.coord.y : ℚ) + b.offset.y)) ∧
    ((0 ≤ (a.sub b).offset.x ∧ (a.sub b).offset.x < 1) ∧
     (0 ≤ (a.sub b).offset.y ∧ (a.sub b).offset.y < 1) ∧
     ((a.sub b).coord.x : ℚ) + (a.sub b).offset.x
        = ((a.coord.x : ℚ) + a.offset.x) - ((b.coord.x : ℚ) + b.offset.x) ∧
     ((a.sub b).coord.y : ℚ) + (a.sub b).offset.y
        = ((a.coord.y : ℚ) + a.offset.y) - ((b.coord.y : ℚ) + b.offset.y)) ∧
    ((0 ≤ (a.addOff o).offset.x ∧ (a.addOff o).offset.x < 1) ∧
     (0 ≤ (a.addOff o).offset.y ∧ (a.addOff o).offset.y < 1) ∧
     ((a.addOff o).coord.x : ℚ) + (a.addOff o).offset.x = ((a.coord.x : ℚ) + a.offset.x) + o.x ∧
     ((a.addOff o).coord.y : ℚ) + (a.addOff o).offset.y = ((a.coord.y : ℚ) + a.offset.y) + o.y) ∧
    ((0 ≤ (a.subOff o).offset.x ∧ (a.subOff o).offset.x < 1) ∧
     (0 ≤ (a.subOff o).offset.y ∧ (a.subOff o).offset.y < 1) ∧
     ((a.subOff o).coord.x : ℚ) + (a.subOff o).offset.x = ((a.coord.x : ℚ) + a.offset.x) - o.x ∧
     ((a.subOff o).coord.y : ℚ) + (a.subOff o).offset.y = ((a.coord.y : ℚ) + a.offset.y) - o.y) := by
  refine ⟨?_, ?_, ?_, ?_⟩
  · obtain ⟨hx, hy⟩ := normalize_offset_bounds
      ⟨⟨a.coord.x + b.coord.x, a.coord.y + b.coord.y⟩,
       ⟨a.offset.x + b.offset.x, a.offset.y + b.offset.y⟩⟩
    obtain ⟨rx, ry⟩ := normalize_roundtrip
      ⟨⟨a.coord.x + b.coord.x, a.coord.y + b.coord.y⟩,
       ⟨a.offset.x + b.offset.x, a.offset.y + b.offset.y⟩⟩
    refine ⟨hx, hy, ?_, ?_⟩
    · rw [WorldPosition.add]; rw [rx]; push_cast; ring
    · rw [WorldPosition.add]; rw [ry]; push_cast; ring
  · obtain ⟨hx, hy⟩ := normalize_offset_bounds
      ⟨⟨a.coord.x - b.coord.x, a.coord.y - b.coord.y⟩,
       ⟨a.offset.x - b.offset.x, a.offset.y - b.offset.y⟩⟩
    obtain ⟨rx, ry⟩ := normalize_roundtrip
      ⟨⟨a.coord.x - b.coord.x, a.coord.y - b.coord.y⟩,
       ⟨a.offset.x - b.offset.x, a.offset.y - b.offset.y⟩⟩
    refine ⟨hx, hy, ?_, ?_⟩
    · rw [WorldPosition.sub]; rw [rx]; push_cast; ring
    · rw [WorldPosition.sub]; rw [ry]; push_cast; ring
  · obtain ⟨hx, hy⟩ := normalize_offset_bounds
      ⟨a.coord, ⟨a.offset.x + o.x, a.offset.y + o.y⟩⟩
    obtain ⟨rx, ry⟩ := normalize_roundtrip
      ⟨a.coord, ⟨a.offset.x + o.x, a.offset.y + o.y⟩⟩
    refine ⟨hx, hy, ?_, ?_⟩
    · rw [WorldPosition.addOff]; rw [rx]; push_cast; ring
    · rw [WorldPosition.addOff]; rw [ry]; push_cast; ring
  · obtain ⟨hx, hy⟩ := normalize_offset_bounds
      ⟨a.coord, ⟨a.offset.x - o.x, a.offset.y - o.y⟩⟩
    obtain ⟨rx, ry⟩ := normalize_roundtrip
      ⟨a.coord, ⟨a.offset.x - o.x, a.offset.y - o.y⟩⟩
    refine ⟨hx, hy, ?_, ?_⟩
    · rw [WorldPosition.subOff]; rw [rx]; push_cast; ring
    · rw [WorldPosition.subOff]; rw [ry]; push_cast; ring

/-- A fully decayed (Stump) tree: its growth_target is none. -/
def stumpAshTree : Tree :=
  { position := ⟨⟨0, 0⟩, ⟨0, 0⟩⟩
    species := .Ash
    stage := .Stump
    growth := 0
    base_growth_speed := 1
    growth_target := none
    seed_timer := 1
    shade_factor := 1 }

/-- A freshly planted Ash sprout (growth target 1). -/
def sproutAshTree : Tree :=
  { position := ⟨⟨0, 0⟩, ⟨0, 0⟩⟩
    species := .Ash
    stage := .Sprout
    growth := 0
    base_growth_speed := 1
    growth_target := some 1
    seed_timer := 1
    shade_factor := 1 }

/-- C2 counterexample: the claim says the accumulator still advances by
base_growth_speed * dt on every call once the threshold is None (Stump);
in the code the whole growth block is skipped when growth_target is None,
so a Stump tree's accumulator is frozen. -/
theorem C2_counterexample_stump_accumulator_frozen :
    ¬ ((stumpAshTree.grow 1).growth
        = stumpAshTree.growth + stumpAshTree.base_growth_speed * 1) := by
  simp [stumpAshTree, Tree.grow]

/-- C2 (amended): when the threshold is Some target, grow(dt) adds
base_growth_speed * dt to the accumulator and advances the stage exactly
when the new accumulator strictly exceeds the target, the new threshold
being target + growth_required_for the new stage (None once that lookup
is empty, i.e. at Stump); when the threshold is None the accumulator,
stage and threshold are all left unchanged (the growth block is skipped). -/
theorem C2_grow_spec_amended (t : Tree) (dt target : ℚ) :
    (t.growth_target = some target →
      (t.grow dt).growth = t.growth + t.base_growth_speed * dt ∧
      (t.growth + t.base_growth_speed * dt > target →
        (t.grow dt).stage = t.stage.next ∧
        (t.grow dt).growth_target =
          (Tree.growth_required_for_next_stage { t with stage := t.stage.next }).map
            (fun r => target + r)) ∧
      (¬ t.growth + t.base_growth_speed * dt > target →
        (t.grow dt).stage = t.stage ∧ (t.grow dt).growth_target = some target)) ∧
    (t.growth_target = none →
      (t.grow dt).growth = t.growth ∧ (t.grow dt).stage = t.stage ∧
      (t.grow dt).growth_target = none) := by
  obtain ⟨pos, sp, st, g, bs, gt, stm, sf⟩ := t
  constructor
  · intro h
    subst h
    by_cases hgt : g + bs * dt > target
    · refine ⟨?_, fun _ => ?_, fun hc => absurd hgt hc⟩
      · cases sp <;> cases st <;>
          simp [Tree.grow, hgt, TreeGrowthStage.next, Tree.growth_required_for_next_stage]
      · cases sp <;> cases st <;>
          simp [Tree.grow, hgt, TreeGrowthStage.next, Tree.growth_required_for_next_stage]
    · refine ⟨?_, fun hc => absurd hc hgt, fun _ => ?_⟩
      · cases st <;> simp [Tree.grow, hgt]
      · cases st <;> simp [Tree.grow, hgt]
  · intro h
    subst h
    cases st <;> simp [Tree.grow]

/-- C2 witness: the amended characterization evaluated on a concrete Ash
sprout that crosses its threshold, and on a concrete Stump. -/
theorem C2_grow_spec_amended_witness :
    (sproutAshTree.grow 2).growth = 2 ∧
    (sproutAshTree.grow 2).stage = TreeGrowthStage.Seedling ∧
    (sproutAshTree.grow 2).growth_target = some 6 ∧
    (stumpAshTree.grow 1).growth = stumpAshTree.growth := by
  have h := (C2_grow_spec_amended sproutAshTree 2 1).1 rfl
  have h2 := (C2_grow_spec_amended stumpAshTree 1 0).2 rfl
  have hcross := h.2.1 (by norm_num [sproutAshTree])
  refine ⟨?_, ?_, ?_, h2.1⟩
  · simpa [sproutAshTree] using h.1
  · simpa [sproutAshTree, TreeGrowthStage.next] using hcross.1
  · have h6 := hcross.2
    simp [sproutAshTree, TreeGrowthStage.next, Tree.growth_required_for_next_stage] at h6
    norm_num at h6
    exact h6

/-- The world state right after construction, before any tree is planted. -/
def emptyState : GameState :=
  { tiles := fun _ => (GroundCover.Grass, SoilType.Normal)
    tile_light_amt := fun _ => 0
    count_trees := 0
    per_tile_tree_count := fun _ => 0
    trees := fun _ => none }

/-- A state holding exactly one tree, in slot i of its tile bucket front. -/
def stateWithTree (i : Nat) (t : Tree) : GameState :=
  { emptyState with
    trees := Function.update emptyState.trees i (some t)
    per_tile_tree_count :=
      Function.update emptyState.per_tile_tree_count (i / NUM_TREES_PER_TILE) 1
    count_trees := 1 }

/-- A Fir sapling (growth target at the cumulative Sapling threshold). -/
def saplingFirTree : Tree :=
  { position := ⟨⟨0, 0⟩, ⟨1/2, 1/2⟩⟩
    species := .Fir
    stage := .Sapling
    growth := 21
    base_growth_speed := 1
    growth_target := some 40
    seed_timer := 1
    shade_factor := 1 }

/-- C4 counterexample: the claim says a Kill applied to a tree whose
current stage is Sapling or any later stage transitions it to Snag; a
Stump is a later stage than Sapling, yet kill_tree leaves it a Stump. -/
theorem C4_counterexample_kill_stump_stays_stump :
    (((stateWithTree 0 stumpAshTree).kill_tree 0).trees 0).map Tree.stage
        = some TreeGrowthStage.Stump ∧
    TreeGrowthStage.Stump ≠ TreeGrowthStage.Snag := by
  constructor
  · simp [GameState.kill_tree, stateWithTree, emptyState, stumpAshTree]
  · decide

/-- C4 (amended): a Kill event on a Sprout or Seedling deletes the slot
immediately (so it is never observed as Snag); on Sapling through Decline
it transitions the tree to Snag and resets its growth target to the
decay-stage (Snag) requirement of its species; on an already dead tree
(Snag or Stump) it is a no-op. -/
theorem C4_kill_tree_spec_amended (s : GameState) (i : Nat) (t : Tree)
    (h : s.trees i = some t) :
    ((t.stage = .Sprout ∨ t.stage = .Seedling) →
      s.kill_tree i = s.delete_tree i ∧ (s.kill_tree i).trees i = none) ∧
    ((t.stage = .Sapling ∨ t.stage = .Mature ∨ t.stage = .Old ∨ t.stage = .Decline) →
      (s.kill_tree i).trees i =
        some { t with stage := TreeGrowthStage.Snag,
                      growth_target :=
                        Tree.growth_required_for_next_stage
                          { t with stage := TreeGrowthStage.Snag } } ∧
      Tree.growth_required_for_next_stage { t with stage := TreeGrowthStage.Snag } =
        some (match t.species with | .Ash => 10 | .Fir => 10 | .CottonWood => 15)) ∧
    ((t.stage = .Snag ∨ t.stage = .Stump) → s.kill_tree i = s) := by
  refine ⟨fun hst => ?_, fun hst => ?_, fun hst => ?_⟩
  · rcases hst with hst | hst <;>
    · constructor
      · simp [GameState.kill_tree, h, hst]
      · simp [GameState.kill_tree, GameState.delete_tree, h, hst]
  · have hmain : (s.kill_tree i).trees i =
        some { t with stage := TreeGrowthStage.Snag,
                      growth_target :=
                        Tree.growth_required_for_next_stage
                          { t with stage := TreeGrowthStage.Snag } } := by
      rcases hst with hst | hst | hst | hst <;> simp [GameState.kill_tree, h, hst]
    refine ⟨hmain, ?_⟩
    cases hsp : t.species <;>
      simp [Tree.growth_required_for_next_stage, hsp]
  · rcases hst with hst | hst <;> simp [GameState.kill_tree, h, hst]

/-- C4 witness: the amended kill behavior evaluated on concrete states
holding a Sprout (deleted), a Sapling (becomes Snag with decay target 10)
and a Stump (no-op). -/
theorem C4_kill_tree_spec_amended_witness :
    ((stateWithTree 7 sproutAshTree).kill_tree 7).trees 7 = none ∧
    (((stateWithTree 3 saplingFirTree).kill_tree 3).trees 3).map Tree.stage
        = some TreeGrowthStage.Snag ∧
    (((stateWithTree 3 saplingFirTree).kill_tree 3).trees 3).map Tree.growth_target
        = some (some 10) ∧
    (stateWithTree 0 stumpAshTree).kill_tree 0 = stateWithTree 0 stumpAshTree := by
  have h1 := C4_kill_tree_spec_amended (stateWithTree 7 sproutAshTree) 7 sproutAshTree
      (by simp [stateWithTree, emptyState])
  have h2 := C4_kill_tree_spec_amended (stateWithTree 3 saplingFirTree) 3 saplingFirTree
      (by simp [stateWithTree, emptyState])
  have h3 := C4_kill_tree_spec_amended (stateWithTree 0 stumpAshTree) 0 stumpAshTree
      (by simp [stateWithTree, emptyState])
  refine ⟨(h1.1 (Or.inl rfl)).2, ?_, ?_, h3.2.2 (Or.inr rfl)⟩
  · rw [(h2.2.1 (Or.inl rfl)).1]
    simp [(h2.2.1 (Or.inl rfl)).2]
  · rw [(h2.2.1 (Or.inl rfl)).1]
    simp [(h2.2.1 (Or.inl rfl)).2]
    rfl

lemma set_shade_trees_ne (s : GameState) (i : Nat) (ops : FloatOps) (j : Nat) (hj : j ≠ i) :
    (s.set_shade_from_surrounding_trees i ops).trees j = s.trees j := by
  unfold GameState.set_shade_from_surrounding_trees
  cases h : s.trees i with
  | none => rfl
  | some t => simp [GameState.modifyTree, Function.update, hj]

lemma set_shade_trees_self (s : GameState) (i : Nat) (ops : FloatOps) :
    (s.set_shade_from_surrounding_trees i ops).trees i
      = (s.trees i).map
          (fun t => { t with shade_factor := computeShadeFactor s i t.position ops }) := by
  unfold GameState.set_shade_from_surrounding_trees
  cases h : s.trees i with
  | none => simp [h]
  | some t => simp [h, GameState.modifyTree, Function.update]

lemma set_shade_frame (s : GameState) (i : Nat) (ops : FloatOps) :
    (s.set_shade_from_surrounding_trees i ops).per_tile_tree_count = s.per_tile_tree_count ∧
    (s.set_shade_from_surrounding_trees i ops).count_trees = s.count_trees ∧
    (s.set_shade_from_surrounding_trees i ops).tiles = s.tiles ∧
    (s.set_shade_from_surrounding_trees i ops).tile_light_amt = s.tile_light_amt := by
  unfold GameState.set_shade_from_surrounding_trees
  cases h : s.trees i with
  | none => exact ⟨rfl, rfl, rfl, rfl⟩
  | some t => exact ⟨rfl, rfl, rfl, rfl⟩

/-- C8: planting into a cell whose recorded count already equals the
per-cell capacity is a silent no-op returning the state unchanged; when
the count is below capacity, plant writes the new tree (its shade factor
then recomputed) into slot index count of that cell's bucket, increments
that cell's count by one and the global tree count by one, and leaves
every other slot and every other cell's count unchanged. -/
theorem C8_plant_tree_spec (s : GameState) (pos : WorldPosition) (species : TreeSpecies)
    (ops : FloatOps) :
    (s.per_tile_tree_count (tile_index pos.coord.x pos.coord.y) = NUM_TREES_PER_TILE →
      s.plant_tree pos species ops = s) ∧
    (s.per_tile_tree_count (tile_index pos.coord.x pos.coord.y) < NUM_TREES_PER_TILE →
      (s.plant_tree pos species ops).per_tile_tree_count (tile_index pos.coord.x pos.coord.y)
          = s.per_tile_tree_count (tile_index pos.coord.x pos.coord.y) + 1 ∧
      (∀ t2, t2 ≠ tile_index pos.coord.x pos.coord.y →
        (s.plant_tree pos species ops).per_tile_tree_count t2 = s.per_tile_tree_count t2) ∧
      (∃ sf : ℚ, (s.plant_tree pos species ops).trees
          (tree_slot_index (tile_index pos.coord.x pos.coord.y)
            (s.per_tile_tree_count (tile_index pos.coord.x pos.coord.y)))
          = some { Tree.new species pos with shade_factor := sf }) ∧
      (∀ j, j ≠ tree_slot_index (tile_index pos.coord.x pos.coord.y)
              (s.per_tile_tree_count (tile_index pos.coord.x pos.coord.y)) →
        (s.plant_tree pos species ops).trees j = s.trees j) ∧
      (s.plant_tree pos species ops).count_trees = s.count_trees + 1) := by
  constructor
  · intro hfull
    unfold GameState.plant_tree
    simp [hfull]
  · intro hroom
    unfold GameState.plant_tree
    simp only [hroom, if_pos]
    constructor
    · rw [(set_shade_frame _ _ ops).1]
      simp [Function.update]
    constructor
    · intro t2 ht2
      rw [(set_shade_frame _ _ ops).1]
      simp [Function.update, ht2]
    constructor
    · refine ⟨computeShadeFactor
        { s with
          trees := Function.update s.trees
            (tree_slot_index (tile_index pos.coord.x pos.coord.y)
              (s.per_tile_tree_count (tile_index pos.coord.x pos.coord.y)))
            (some (Tree.new species pos))
          per_tile_tree_count := Function.update s.per_tile_tree_count
            (tile_index pos.coord.x pos.coord.y)
            (s.per_tile_tree_count (tile_index pos.coord.x pos.coord.y) + 1)
          count_trees := s.count_trees + 1 }
        (tree_slot_index (tile_index pos.coord.x pos.coord.y)
          (s.per_tile_tree_count (tile_index pos.coord.x pos.coord.y)))
        (Tree.new species pos).position ops, ?_⟩
      rw [set_shade_trees_self]
      simp [Function.update]
    constructor
    · intro j hj
      rw [set_shade_trees_ne _ _ ops j hj]
      simp [Function.update, hj]
    · rw [(set_shade_frame _ _ ops).2.1]

/-- C8 witness: planting into a full cell is the identity on a concrete
full state; planting into the empty state fills slot 0 of tile 0 and
bumps both counters. -/
theorem C8_plant_tree_spec_witness :
    (let fullS : GameState :=
      { emptyState with per_tile_tree_count := Function.update emptyState.per_tile_tree_count 0 10 }
     fullS.plant_tree ⟨⟨0, 0⟩, ⟨0, 0⟩⟩ .Ash ⟨id, id, id, id⟩ = fullS) ∧
    (emptyState.plant_tree ⟨⟨0, 0⟩, ⟨0, 0⟩⟩ .Ash ⟨id, id, id, id⟩).count_trees = 1 ∧
    (emptyState.plant_tree ⟨⟨0, 0⟩, ⟨0, 0⟩⟩ .Ash ⟨id, id, id, id⟩).per_tile_tree_count 0 = 1 := by
  refine ⟨?_, ?_, ?_⟩
  · exact (C8_plant_tree_spec _ ⟨⟨0, 0⟩, ⟨0, 0⟩⟩ .Ash ⟨id, id, id, id⟩).1
      (by simp [emptyState, tile_index, NUM_TREES_PER_TILE, Function.update])
  · have h := (C8_plant_tree_spec emptyState ⟨⟨0, 0⟩, ⟨0, 0⟩⟩ .Ash ⟨id, id, id, id⟩).2
      (by simp [emptyState, NUM_TREES_PER_TILE])
    simpa [emptyState] using h.2.2.2.2
  · have h := (C8_plant_tree_spec emptyState ⟨⟨0, 0⟩, ⟨0, 0⟩⟩ .Ash ⟨id, id, id, id⟩).2
      (by simp [emptyState, NUM_TREES_PER_TILE])
    have h0 := h.1
    simpa [emptyState, tile_index] using h0

lemma distance_sq_nonneg (a b : WorldPosition) : 0 ≤ a.distance_sq b := by
  have h : a.distance_sq b
      = (((b.sub a).coord.x : ℚ) + (b.sub a).offset.x) * (((b.sub a).coord.x : ℚ) + (b.sub a).offset.x)
        + (((b.sub a).coord.y : ℚ) + (b.sub a).offset.y) * (((b.sub a).coord.y : ℚ) + (b.sub a).offset.y) := rfl
  rw [h]
  have h1 := mul_self_nonneg (((b.sub a).coord.x : ℚ) + (b.sub a).offset.x)
  have h2 := mul_self_nonneg (((b.sub a).coord.y : ℚ) + (b.sub a).offset.y)
  linarith

lemma iter_radius_zero_eq (s : GameState) (px py : ℤ) (ox oy : ℚ)
    (hx0 : 0 ≤ px) (hx1 : px < 30) (hy0 : 0 ≤ py) (hy1 : py < 30)
    (hox0 : 0 ≤ ox) (hox1 : ox < 1) (hoy0 : 0 ≤ oy) (hoy1 : oy < 1) :
    GameState.iter_trees_in_radius s ⟨⟨px, py⟩, ⟨ox, oy⟩⟩ 0
      = (iterTreesInRegion s.trees px.toNat py.toNat px.toNat py.toNat).filter
          (fun it => decide (it.2.position.distance_sq ⟨⟨px, py⟩, ⟨ox, oy⟩⟩ ≤ 0 * 0)) := by
  have hfx : ⌊ox⌋ = 0 := Int.floor_eq_zero_iff.mpr ⟨hox0, hox1⟩
  have hfy : ⌊oy⌋ = 0 := Int.floor_eq_zero_iff.mpr ⟨hoy0, hoy1⟩
  have es : WorldPosition.subOff ⟨⟨px, py⟩, ⟨ox, oy⟩⟩ ⟨0, 0⟩ = ⟨⟨px, py⟩, ⟨ox, oy⟩⟩ := by
    simp [WorldPosition.subOff, WorldPosition.normalize, hfx, hfy]
  have ea : WorldPosition.addOff ⟨⟨px, py⟩, ⟨ox, oy⟩⟩ ⟨0, 0⟩ = ⟨⟨px, py⟩, ⟨ox, oy⟩⟩ := by
    simp [WorldPosition.addOff, WorldPosition.normalize, hfx, hfy]
  unfold GameState.iter_trees_in_radius
  dsimp only
  rw [es, ea]
  have h1 : (max px 0).toNat = px.toNat := by omega
  have h2 : (max py 0).toNat = py.toNat := by omega
  have h3 : (min px ((GRID_DIM - 1 : Nat) : Int)).toNat = px.toNat := by
    simp only [GRID_DIM]
    omega
  have h4 : (min py ((GRID_DIM - 1 : Nat) : Int)).toNat = py.toNat := by
    simp only [GRID_DIM]
    omega
  rw [h1, h2, h3, h4]

lemma iter_radius_zero_mem (s : GameState) (px py : ℤ) (ox oy : ℚ)
    (hx0 : 0 ≤ px) (hx1 : px < 30) (hy0 : 0 ≤ py) (hy1 : py < 30)
    (hox0 : 0 ≤ ox) (hox1 : ox < 1) (hoy0 : 0 ≤ oy) (hoy1 : oy < 1)
    (j : Nat) (t : Tree) (hj : j < NUM_TREES_PER_TILE)
    (ht : s.trees (tree_slot_index (tile_index px py) j) = some t)
    (hdist : t.position.distance_sq ⟨⟨px, py⟩, ⟨ox, oy⟩⟩ = 0) :
    (tree_slot_index (tile_index px py) j, t)
      ∈ GameState.iter_trees_in_radius s ⟨⟨px, py⟩, ⟨ox, oy⟩⟩ 0 := by
  rw [iter_radius_zero_eq s px py ox oy hx0 hx1 hy0 hy1 hox0 hox1 hoy0 hoy1]
  apply List.mem_filter_of_mem
  · unfold iterTreesInRegion
    apply List.mem_filterMap.mpr
    refine ⟨tree_slot_index (tile_index px py) j, ?_, ?_⟩
    · unfold regionSlotIndices
      have hx : tile_index px py = px.toNat + py.toNat * GRID_DIM := rfl
      simp only [Nat.add_sub_cancel_left, List.range'_one, List.flatMap_cons,
        List.flatMap_nil, List.append_nil]
      apply List.mem_map.mpr
      exact ⟨j, List.mem_range.mpr hj, by rw [hx]⟩
    · rw [ht]
      rfl
  · simp [hdist]

/-- C3 counterexample: with radius exactly 0, a tree located exactly at
the center position passes the squared-distance filter (0 ≤ 0) and is
yielded, so the query is not the empty sequence the claim demands. -/
theorem C3_counterexample_radius_zero_yields_center_tree :
    (stateWithTree 1550 (Tree.new .Ash ⟨⟨5, 5⟩, ⟨0, 0⟩⟩)).iter_trees_in_radius
        ⟨⟨5, 5⟩, ⟨0, 0⟩⟩ 0 ≠ [] := by
  have heq : tree_slot_index (tile_index 5 5) 0 = 1550 := by decide
  have h := iter_radius_zero_mem (stateWithTree 1550 (Tree.new .Ash ⟨⟨5, 5⟩, ⟨0, 0⟩⟩))
      5 5 0 0 (by norm_num) (by norm_num) (by norm_num) (by norm_num)
      (by norm_num) (by norm_num) (by norm_num) (by norm_num)
      0 (Tree.new .Ash ⟨⟨5, 5⟩, ⟨0, 0⟩⟩)
      (by norm_num [NUM_TREES_PER_TILE])
      (by rw [heq]; simp [stateWithTree, emptyState, Function.update])
      (by norm_num [Tree.new, WorldPosition.distance_sq, WorldPosition.sub,
            WorldPosition.normalize, Int.fract_zero, neg_zero])
  rw [heq] at h
  exact List.ne_nil_of_mem h

/-- C3 (amended): with radius exactly 0 (and an in-grid, normalized center),
the radius query yields precisely the trees at squared distance exactly 0
from the center — every yielded tree is at squared distance 0, and every
tree stored in the center tile's bucket at squared distance 0 is yielded —
rather than the empty sequence. -/
theorem C3_radius_zero_spec_amended (s : GameState) (pos : WorldPosition)
    (hx0 : 0 ≤ pos.coord.x) (hx1 : pos.coord.x < (GRID_DIM : Int))
    (hy0 : 0 ≤ pos.coord.y) (hy1 : pos.coord.y < (GRID_DIM : Int))
    (hox0 : 0 ≤ pos.offset.x) (hox1 : pos.offset.x < 1)
    (hoy0 : 0 ≤ pos.offset.y) (hoy1 : pos.offset.y < 1) :
    (∀ p ∈ s.iter_trees_in_radius pos 0, p.2.position.distance_sq pos = 0) ∧
    (∀ j t, j < NUM_TREES_PER_TILE →
      s.trees (tree_slot_index (tile_index pos.coord.x pos.coord.y) j) = some t →
      t.position.distance_sq pos = 0 →
      (tree_slot_index (tile_index pos.coord.x pos.coord.y) j, t)
        ∈ s.iter_trees_in_radius pos 0) := by
  obtain ⟨⟨px, py⟩, ⟨ox, oy⟩⟩ := pos
  simp only at hx0 hx1 hy0 hy1 hox0 hox1 hoy0 hoy1
  simp only [GRID_DIM] at hx1 hy1
  have hx1i : px < 30 := by exact_mod_cast hx1
  have hy1i : py < 30 := by exact_mod_cast hy1
  constructor
  · intro p hp
    rw [iter_radius_zero_eq s px py ox oy hx0 hx1i hy0 hy1i hox0 hox1 hoy0 hoy1] at hp
    have hmem := (List.mem_filter.mp hp).2
    have hle : p.2.position.distance_sq ⟨⟨px, py⟩, ⟨ox, oy⟩⟩ ≤ 0 * 0 := by
      simpa using hmem
    have hge := distance_sq_nonneg p.2.position ⟨⟨px, py⟩, ⟨ox, oy⟩⟩
    nlinarith
  · intro j t hj ht hdist
    exact iter_radius_zero_mem s px py ox oy hx0 hx1i hy0 hy1i hox0 hox1 hoy0 hoy1
      j t hj ht hdist

/-- C3 witness: the amended characterization applied to the concrete
one-tree state: the tree exactly at the center is yielded at radius 0. -/
theorem C3_radius_zero_spec_amended_witness :
    (1550, Tree.new .Ash ⟨⟨5, 5⟩, ⟨0, 0⟩⟩)
      ∈ (stateWithTree 1550 (Tree.new .Ash ⟨⟨5, 5⟩, ⟨0, 0⟩⟩)).iter_trees_in_radius
          ⟨⟨5, 5⟩, ⟨0, 0⟩⟩ 0 := by
  have heq : tree_slot_index (tile_index 5 5) 0 = 1550 := by decide
  have h := (C3_radius_zero_spec_amended
      (stateWithTree 1550 (Tree.new .Ash ⟨⟨5, 5⟩, ⟨0, 0⟩⟩)) ⟨⟨5, 5⟩, ⟨0, 0⟩⟩
      (by norm_num) (by norm_num [GRID_DIM]) (by norm_num) (by norm_num [GRID_DIM])
      (by norm_num) (by norm_num) (by norm_num) (by norm_num)).2 0
      (Tree.new .Ash ⟨⟨5, 5⟩, ⟨0, 0⟩⟩)
      (by norm_num [NUM_TREES_PER_TILE])
      (by rw [heq]; simp [stateWithTree, emptyState, Function.update])
      (by norm_num [Tree.new, WorldPosition.distance_sq, WorldPosition.sub,
            WorldPosition.normalize, Int.fract_zero, neg_zero])
  rwa [heq] at h

/-- Identity stand-ins for the irrational f32 primitives (sqrt 0 = 0 is
all the concrete states below rely on). -/
def idOps : FloatOps := ⟨id, id, id, id⟩

lemma mem_iterTreesInRegion {trees : Nat → Option Tree} {a b c d : Nat} {p : Nat × Tree}
    (hp : p ∈ iterTreesInRegion trees a b c d) : trees p.1 = some p.2 := by
  unfold iterTreesInRegion at hp
  obtain ⟨i, _, hi⟩ := List.mem_filterMap.mp hp
  cases h : trees i with
  | none => rw [h] at hi; exact absurd hi (by simp)
  | some t =>
    rw [h] at hi
    simp only [Option.map_some', Option.some.injEq] at hi
    rw [← hi]
    exact h

lemma mem_iter_radius_trees {s : GameState} {pos : WorldPosition} {r : ℚ} {p : Nat × Tree}
    (hp : p ∈ s.iter_trees_in_radius pos r) : s.trees p.1 = some p.2 := by
  unfold GameState.iter_trees_in_radius at hp
  exact mem_iterTreesInRegion (List.mem_of_mem_filter hp)

lemma clampQ_mem (x lo hi : ℚ) (h : lo ≤ hi) :
    lo ≤ clampQ x lo hi ∧ clampQ x lo hi ≤ hi :=
  ⟨le_max_left _ _, max_le h (min_le_right _ _)⟩

lemma quintic01 (t : ℚ) (ht0 : 0 ≤ t) (ht1 : t ≤ 1) :
    0 ≤ t * t * t * (t * (t * 6 - 15) + 10) ∧ t * t * t * (t * (t * 6 - 15) + 10) ≤ 1 := by
  constructor
  · have hpoly : 0 < t * (t * 6 - 15) + 10 := by nlinarith [sq_nonneg (t - 5/4)]
    have ht3 : 0 ≤ t * t * t := by positivity
    nlinarith
  · have key : 1 - t * t * t * (t * (t * 6 - 15) + 10)
        = (1 - t) * (1 - t) * (1 - t) * (6 * t * t + 3 * t + 1) := by ring
    have hsub : 0 ≤ 1 - t := by linarith
    have h6 : 0 ≤ 6 * t * t + 3 * t + 1 := by nlinarith
    nlinarith [mul_nonneg (mul_nonneg (mul_nonneg hsub hsub) hsub) h6]

lemma quintic_lt_one (t : ℚ) (ht0 : 0 ≤ t) (htlt : t < 1) :
    t * t * t * (t * (t * 6 - 15) + 10) < 1 := by
  have key : 1 - t * t * t * (t * (t * 6 - 15) + 10)
      = (1 - t) * (1 - t) * (1 - t) * (6 * t * t + 3 * t + 1) := by ring
  have hsub : 0 < 1 - t := by linarith
  have h6 : 0 < 6 * t * t + 3 * t + 1 := by nlinarith
  nlinarith [mul_pos (mul_pos (mul_pos hsub hsub) hsub) h6]

lemma smoothstep_mem (mn mx x : ℚ) : 0 ≤ smoothstep mn mx x ∧ smoothstep mn mx x ≤ 1 := by
  have hc := clampQ_mem ((x - mn) / (mx - mn)) 0 1 (by norm_num)
  exact quintic01 _ hc.1 hc.2

lemma one_sub_smoothstep_pos (rad d : ℚ) (hr : 0 < rad) (hd : 0 < d) (_hdr : d ≤ rad) :
    0 < 1 - smoothstep rad 0 d := by
  have hu1 : (d - rad) / (0 - rad) < 1 := by
    rw [zero_sub, div_neg, ← neg_div, neg_sub]
    rw [div_lt_one hr]
    linarith
  have hc := clampQ_mem ((d - rad) / (0 - rad)) 0 1 (by norm_num)
  have hclt : clampQ ((d - rad) / (0 - rad)) 0 1 < 1 := by
    unfold clampQ
    apply max_lt (by norm_num)
    exact lt_of_le_of_lt (min_le_left _ _) hu1
  have h := quintic_lt_one _ hc.1 hclt
  have hss : smoothstep rad 0 d
      = (fun t : ℚ => t * t * t * (t * (t * 6 - 15) + 10))
          (clampQ ((d - rad) / (0 - rad)) 0 1) := rfl
  rw [hss]
  simpa using h

lemma shade_fold_le (i : Nat) (pos : WorldPosition) (ops : FloatOps) :
    ∀ (l : List (Nat × Tree)) (acc : ℚ), 0 ≤ acc →
      0 ≤ l.foldl (shadeStep i pos ops) acc ∧ l.foldl (shadeStep i pos ops) acc ≤ acc := by
  intro l
  induction l with
  | nil => exact fun acc h => ⟨h, le_rfl⟩
  | cons p l ih =>
    intro acc hacc
    have hstep : 0 ≤ shadeStep i pos ops acc p ∧ shadeStep i pos ops acc p ≤ acc := by
      simp only [shadeStep]
      split_ifs with h1 h2 h3
      · exact ⟨hacc, le_rfl⟩
      · exact ⟨hacc, le_rfl⟩
      · obtain ⟨hs0, hs1⟩ := smoothstep_mem (p.2.species.shadow_radius p.2.stage) 0
          (pos.distance ops p.2.position)
        constructor
        · apply mul_nonneg hacc
          linarith
        · apply mul_le_of_le_one_right hacc
          linarith
      · exact ⟨hacc, le_rfl⟩
    have := ih (shadeStep i pos ops acc p) hstep.1
    exact ⟨this.1, le_trans this.2 hstep.2⟩

lemma shade_fold_pos (i : Nat) (pos : WorldPosition) (ops : FloatOps) :
    ∀ (l : List (Nat × Tree)) (acc : ℚ), 0 < acc →
      (∀ p ∈ l, p.1 ≠ i → 0 < p.2.species.shadow_radius p.2.stage →
        0 < pos.distance ops p.2.position) →
      0 < l.foldl (shadeStep i pos ops) acc := by
  intro l
  induction l with
  | nil => exact fun acc h _ => h
  | cons p l ih =>
    intro acc hacc hl
    have hstep : 0 < shadeStep i pos ops acc p := by
      simp only [shadeStep]
      split_ifs with h1 h2 h3
      · exact hacc
      · exact hacc
      · push_neg at h2
        have hd := hl p (List.mem_cons_self p l) h1 h2
        exact mul_pos hacc (one_sub_smoothstep_pos _ _ h2 hd h3)
      · exact hacc
    exact ih _ hstep (fun q hq => hl q (List.mem_cons_of_mem p hq))

lemma shade_fold_zero (i : Nat) (pos : WorldPosition) (ops : FloatOps) :
    ∀ (l : List (Nat × Tree)), l.foldl (shadeStep i pos ops) 0 = 0 := by
  intro l
  induction l with
  | nil => rfl
  | cons p l ih =>
    have hstep : shadeStep i pos ops 0 p = 0 := by
      simp only [shadeStep]
      split_ifs <;> simp
    rw [List.foldl_cons, hstep, ih]

/-- A mature Ash (shadow radius 9/10) sitting exactly at the origin cell corner. -/
def matureAshTree : Tree :=
  { position := ⟨⟨0, 0⟩, ⟨0, 0⟩⟩
    species := .Ash
    stage := .Mature
    growth := 26
    base_growth_speed := 1
    growth_target := some 71
    seed_timer := 1
    shade_factor := 1 }

/-- Two trees at exactly the same world position: the mature Ash in slot 0
shades the sprout in slot 1 from distance 0. -/
def coincidentPairState : GameState :=
  { emptyState with
    trees := Function.update
      (Function.update emptyState.trees 0 (some matureAshTree)) 1
      (some (Tree.new .Ash ⟨⟨0, 0⟩, ⟨0, 0⟩⟩))
    per_tile_tree_count := Function.update emptyState.per_tile_tree_count 0 2
    count_trees := 2 }

/-- C6 counterexample: the from-scratch shade recompute drives the shade
factor of a tree to exactly 0 when another tree with positive shadow
radius sits at distance exactly 0, refuting shade_factor ∈ (0, 1]. -/
theorem C6_counterexample_shade_factor_zero :
    (((coincidentPairState.set_shade_from_surrounding_trees 1 idOps).trees 1).map
        Tree.shade_factor) = some 0 := by
  have htarget : coincidentPairState.trees 1 = some (Tree.new .Ash ⟨⟨0, 0⟩, ⟨0, 0⟩⟩) := by
    simp [coincidentPairState, emptyState, Function.update]
  have hpos : (Tree.new .Ash ⟨⟨0, 0⟩, ⟨0, 0⟩⟩).position = ⟨⟨0, 0⟩, ⟨0, 0⟩⟩ := rfl
  have hmem : ((0 : Nat), matureAshTree)
      ∈ coincidentPairState.iter_trees_in_radius ⟨⟨0, 0⟩, ⟨0, 0⟩⟩ 1 := by
    unfold GameState.iter_trees_in_radius
    dsimp only
    have hmn : WorldPosition.subOff ⟨⟨0, 0⟩, ⟨0, 0⟩⟩ ⟨1, 1⟩
        = ⟨⟨-1, -1⟩, ⟨0, 0⟩⟩ := by
      simp only [WorldPosition.subOff, WorldPosition.normalize]
      norm_num
    have hmx : WorldPosition.addOff ⟨⟨0, 0⟩, ⟨0, 0⟩⟩ ⟨1, 1⟩
        = ⟨⟨1, 1⟩, ⟨0, 0⟩⟩ := by
      simp only [WorldPosition.addOff, WorldPosition.normalize]
      norm_num
    rw [hmn, hmx]
    apply List.mem_filter_of_mem
    · unfold iterTreesInRegion
      apply List.mem_filterMap.mpr
      refine ⟨0, ?_, ?_⟩
      · have hreg : (0 : Nat) ∈ regionSlotIndices (Int.toNat (max (-1) 0))
            (Int.toNat (max (-1) 0)) (Int.toNat (min 1 ((GRID_DIM - 1 : Nat) : Int)))
            (Int.toNat (min 1 ((GRID_DIM - 1 : Nat) : Int))) := by decide
        exact hreg
      · have h0 : coincidentPairState.trees 0 = some matureAshTree := by
          simp [coincidentPairState, emptyState, Function.update]
        rw [h0]
        rfl
    · have hdsq : matureAshTree.position.distance_sq ⟨⟨0, 0⟩, ⟨0, 0⟩⟩ = 0 := by
        norm_num [matureAshTree, WorldPosition.distance_sq, WorldPosition.sub,
          WorldPosition.normalize, Int.fract_zero, neg_zero]
      simp [hdsq]
  obtain ⟨l1, l2, hsplit⟩ := List.append_of_mem hmem
  have hshade : computeShadeFactor coincidentPairState 1
      (Tree.new .Ash ⟨⟨0, 0⟩, ⟨0, 0⟩⟩).position idOps = 0 := by
    show computeShadeFactor coincidentPairState 1 ⟨⟨0, 0⟩, ⟨0, 0⟩⟩ idOps = 0
    unfold computeShadeFactor
    rw [hsplit, List.foldl_append, List.foldl_cons]
    have hstep : ∀ acc : ℚ, shadeStep 1 ⟨⟨0, 0⟩, ⟨0, 0⟩⟩ idOps acc (0, matureAshTree) = 0 := by
      intro acc
      unfold shadeStep
      have hrad : matureAshTree.species.shadow_radius matureAshTree.stage = 9/10 := rfl
      have hdist : WorldPosition.distance idOps ⟨⟨0, 0⟩, ⟨0, 0⟩⟩ matureAshTree.position = 0 := by
        norm_num [WorldPosition.distance, idOps, matureAshTree, WorldPosition.distance_sq,
          WorldPosition.sub, WorldPosition.normalize, Int.fract_zero, neg_zero]
      simp only [hrad, hdist]
      norm_num [smoothstep, clampQ]
    rw [hstep]
    exact shade_fold_zero _ _ _ l2
  rw [set_shade_trees_self, htarget]
  simp [hshade]

/-- C6 (amended): the from-scratch shade recompute always lands in [0, 1],
and is strictly positive provided every other in-scan tree with positive
shadow radius lies at strictly positive computed distance; the stored
shade factor of the recomputed slot is exactly this value. shade = 0 is
attained exactly in the degenerate distance-0 case of the counterexample. -/
theorem C6_shade_recompute_spec_amended (s : GameState) (i : Nat) (t : Tree) (ops : FloatOps)
    (h : s.trees i = some t) :
    ((s.set_shade_from_surrounding_trees i ops).trees i
        = some { t with shade_factor := computeShadeFactor s i t.position ops }) ∧
    (0 ≤ computeShadeFactor s i t.position ops ∧ computeShadeFactor s i t.position ops ≤ 1) ∧
    ((∀ p ∈ s.iter_trees_in_radius t.position 1, p.1 ≠ i →
        0 < p.2.species.shadow_radius p.2.stage → 0 < t.position.distance ops p.2.position) →
      0 < computeShadeFactor s i t.position ops) := by
  refine ⟨?_, ?_, ?_⟩
  · rw [set_shade_trees_self, h]
    rfl
  · exact shade_fold_le i t.position ops _ 1 zero_le_one
  · intro hpos
    exact shade_fold_pos i t.position ops _ 1 one_pos hpos

/-- C6 witness: a lone tree (no neighbors can shade it) gets shade factor
in (0, 1] — concretely its recomputed shade factor is positive. -/
theorem C6_shade_recompute_spec_amended_witness :
    0 < computeShadeFactor (stateWithTree 0 (Tree.new .Ash ⟨⟨0, 0⟩, ⟨0, 0⟩⟩)) 0
        (Tree.new .Ash ⟨⟨0, 0⟩, ⟨0, 0⟩⟩).position idOps ∧
    computeShadeFactor (stateWithTree 0 (Tree.new .Ash ⟨⟨0, 0⟩, ⟨0, 0⟩⟩)) 0
        (Tree.new .Ash ⟨⟨0, 0⟩, ⟨0, 0⟩⟩).position idOps ≤ 1 := by
  have h := C6_shade_recompute_spec_amended (stateWithTree 0 (Tree.new .Ash ⟨⟨0, 0⟩, ⟨0, 0⟩⟩))
      0 (Tree.new .Ash ⟨⟨0, 0⟩, ⟨0, 0⟩⟩) idOps
      (by simp [stateWithTree, emptyState, Function.update])
  refine ⟨h.2.2 ?_, h.2.1.2⟩
  · intro p hp hne _
    exfalso
    have := mem_iter_radius_trees hp
    have hnone : (stateWithTree 0 (Tree.new .Ash ⟨⟨0, 0⟩, ⟨0, 0⟩⟩)).trees p.1 = none := by
      simp [stateWithTree, emptyState, Function.update, hne]
    rw [hnone] at this
    exact Option.noConfusion this

/-- Number of occupied slots in one tile's bucket. -/
def bucketCount (trees : Nat → Option Tree) (ti : Nat) : Nat :=
  ((Finset.range NUM_TREES_PER_TILE).filter
    (fun j => (trees (tree_slot_index ti j)).isSome)).card

/-- Same count for a standalone bucket function. -/
def bucketCountF (f : Nat → Option Tree) : Nat :=
  ((Finset.range NUM_TREES_PER_TILE).filter (fun j => (f j).isSome)).card

/-- The packed-front invariant of one tile, exactly as the spec states it:
the recorded count equals the number of occupied slots, and every occupied
slot sits at an in-bucket index strictly below the count. -/
def TileInv (s : GameState) (ti : Nat) : Prop :=
  s.per_tile_tree_count ti = bucketCount s.trees ti ∧
  ∀ j, j < NUM_TREES_PER_TILE → (s.trees (tree_slot_index ti j)).isSome →
    j < s.per_tile_tree_count ti

/-- The weaker mid-apply-phase state of a tile: occupied slots may have
holes, but all still sit strictly below the (possibly stale) count. -/
def PreTileInv (s : GameState) (ti : Nat) : Prop :=
  s.per_tile_tree_count ti ≤ NUM_TREES_PER_TILE ∧
  ∀ j, j < NUM_TREES_PER_TILE → (s.trees (tree_slot_index ti j)).isSome →
    j < s.per_tile_tree_count ti

/-- The packed-front invariant for every tile of the grid. -/
def Inv (s : GameState) : Prop := ∀ ti, ti < GRID_SIZE → TileInv s ti

/-- Total number of occupied slots in the store. -/
def occupiedTotal (s : GameState) : Nat :=
  ∑ ti ∈ Finset.range GRID_SIZE, bucketCount s.trees ti

/-- Invariant of the apply phase: tiles registered for repacking satisfy
the weak form, all others still satisfy the full packed-front invariant. -/
def StoreOk (repack : List Nat) (s : GameState) : Prop :=
  ∀ ti, ti < GRID_SIZE →
    (ti ∈ repack → PreTileInv s ti) ∧ (ti ∉ repack → TileInv s ti)

lemma foldl_preserves {α β : Type} (P : α → Prop) (f : α → β → α) :
    ∀ (l : List β) (a : α), P a → (∀ x b, P x → P (f x b)) → P (l.foldl f a) := by
  intro l
  induction l with
  | nil => exact fun a h _ => h
  | cons b l ih => exact fun a h hf => ih (f a b) (hf a b h) hf

lemma bucketCount_le (trees : Nat → Option Tree) (ti : Nat) :
    bucketCount trees ti ≤ NUM_TREES_PER_TILE := by
  unfold bucketCount
  calc ((Finset.range NUM_TREES_PER_TILE).filter _).card
      ≤ (Finset.range NUM_TREES_PER_TILE).card := Finset.card_filter_le _ _
    _ = NUM_TREES_PER_TILE := Finset.card_range _

lemma tileInv_pre {s : GameState} {ti : Nat} (h : TileInv s ti) : PreTileInv s ti :=
  ⟨h.1 ▸ bucketCount_le _ _, h.2⟩

lemma slot_index_inj {ti j ti2 j2 : Nat} (hj : j < NUM_TREES_PER_TILE)
    (hj2 : j2 < NUM_TREES_PER_TILE)
    (h : tree_slot_index ti j = tree_slot_index ti2 j2) : ti = ti2 ∧ j = j2 := by
  unfold tree_slot_index NUM_TREES_PER_TILE at *
  omega

lemma slot_index_div {ti j : Nat} (hj : j < NUM_TREES_PER_TILE) :
    tree_slot_index ti j / NUM_TREES_PER_TILE = ti := by
  unfold tree_slot_index NUM_TREES_PER_TILE at *
  omega

lemma slot_of_bucket_ne {ti j : Nat} {k : Nat} (hj : j < NUM_TREES_PER_TILE)
    (hne : ti ≠ k / NUM_TREES_PER_TILE) : tree_slot_index ti j ≠ k := by
  intro h
  apply hne
  rw [← h, slot_index_div hj]

lemma bucketCount_congr {trees trees2 : Nat → Option Tree} {ti : Nat}
    (h : ∀ j, j < NUM_TREES_PER_TILE →
      (trees2 (tree_slot_index ti j)).isSome = (trees (tree_slot_index ti j)).isSome) :
    bucketCount trees2 ti = bucketCount trees ti := by
  unfold bucketCount
  congr 1
  apply Finset.filter_congr
  intro j hj
  rw [Finset.mem_range] at hj
  simp [h j hj]

lemma bucketCount_update_ne {trees : Nat → Option Tree} {ti : Nat} {k : Nat}
    {v : Option Tree} (h : ti ≠ k / NUM_TREES_PER_TILE) :
    bucketCount (Function.update trees k v) ti = bucketCount trees ti := by
  apply bucketCount_congr
  intro j hj
  rw [Function.update_noteq (slot_of_bucket_ne hj h)]

lemma bucketCount_update_some {trees : Nat → Option Tree} {ti j0 : Nat} {v : Tree}
    (hj0 : j0 < NUM_TREES_PER_TILE) (hnone : trees (tree_slot_index ti j0) = none) :
    bucketCount (Function.update trees (tree_slot_index ti j0) (some v)) ti
      = bucketCount trees ti + 1 := by
  unfold bucketCount
  have hset : (Finset.range NUM_TREES_PER_TILE).filter
      (fun j => ((Function.update trees (tree_slot_index ti j0) (some v))
        (tree_slot_index ti j)).isSome)
      = insert j0 ((Finset.range NUM_TREES_PER_TILE).filter
          (fun j => (trees (tree_slot_index ti j)).isSome)) := by
    ext j
    simp only [Finset.mem_filter, Finset.mem_insert, Finset.mem_range]
    constructor
    · rintro ⟨hj, hsome⟩
      by_cases hjj : j = j0
      · exact Or.inl hjj
      · refine Or.inr ⟨hj, ?_⟩
        rwa [Function.update_noteq (fun hc =>
          hjj (slot_index_inj hj hj0 hc).2)] at hsome
    · rintro (rfl | ⟨hj, hsome⟩)
      · exact ⟨hj0, by simp [Function.update_same]⟩
      · by_cases hjj : j = j0
        · subst hjj
          exact ⟨hj, by simp [Function.update_same]⟩
        · exact ⟨hj, by
            rw [Function.update_noteq (fun hc => hjj (slot_index_inj hj hj0 hc).2)]
            exact hsome⟩
  rw [hset, Finset.card_insert_of_not_mem]
  simp only [Finset.mem_filter, Finset.mem_range, not_and]
  intro _
  simp [hnone]

lemma bucketCount_update_none_le {trees : Nat → Option Tree} {ti : Nat} {k : Nat} :
    bucketCount (Function.update trees k none) ti ≤ bucketCount trees ti := by
  unfold bucketCount
  apply Finset.card_le_card
  intro j hj
  rw [Finset.mem_filter] at hj ⊢
  refine ⟨hj.1, ?_⟩
  have h2 := hj.2
  by_cases hk : tree_slot_index ti j = k
  · rw [hk, Function.update_same] at h2
    exact absurd h2 (by simp)
  · rwa [Function.update_noteq hk] at h2

/-- Everything the scan phase may not change: per-tile counts, the global
tree count, the terrain grid, and the occupancy pattern of every slot. -/
def ScanShape (a b : GameState) : Prop :=
  a.per_tile_tree_count = b.per_tile_tree_count ∧
  a.count_trees = b.count_trees ∧
  a.tiles = b.tiles ∧
  ∀ i, (a.trees i).isSome = (b.trees i).isSome

lemma scanShape_rfl (a : GameState) : ScanShape a a := ⟨rfl, rfl, rfl, fun _ => rfl⟩

lemma scanShape_trans {a b c : GameState} (h1 : ScanShape a b) (h2 : ScanShape b c) :
    ScanShape a c :=
  ⟨h1.1.trans h2.1, h1.2.1.trans h2.2.1, h1.2.2.1.trans h2.2.2.1,
    fun i => (h1.2.2.2 i).trans (h2.2.2.2 i)⟩

lemma modifyTree_shape (s : GameState) (i : Nat) (f : Tree → Tree) :
    ScanShape (s.modifyTree i f) s := by
  refine ⟨rfl, rfl, rfl, fun j => ?_⟩
  unfold GameState.modifyTree
  by_cases hj : j = i
  · subst hj
    simp [Function.update_same]
  · simp [Function.update_noteq hj]

lemma setSome_shape (s : GameState) (i : Nat) (t : Tree) (h : (s.trees i).isSome) :
    ScanShape { s with trees := Function.update s.trees i (some t) } s := by
  refine ⟨rfl, rfl, rfl, fun j => ?_⟩
  by_cases hj : j = i
  · subst hj
    simp [Function.update_same, h]
  · simp [Function.update_noteq hj]

lemma tileInv_of_shape {a b : GameState} {ti : Nat} (hs : ScanShape a b)
    (h : TileInv b ti) : TileInv a ti := by
  have hb : bucketCount a.trees ti = bucketCount b.trees ti :=
    bucketCount_congr (fun j _ => hs.2.2.2 _)
  constructor
  · rw [hs.1, hb]
    exact h.1
  · intro j hj hsome
    rw [hs.1]
    exact h.2 j hj (by rw [← hs.2.2.2]; exact hsome)

lemma preTileInv_of_shape {a b : GameState} {ti : Nat} (hs : ScanShape a b)
    (h : PreTileInv b ti) : PreTileInv a ti := by
  refine ⟨by rw [hs.1]; exact h.1, ?_⟩
  intro j hj hsome
  rw [hs.1]
  exact h.2 j hj (by rw [← hs.2.2.2]; exact hsome)

lemma set_shade_shape (s : GameState) (i : Nat) (ops : FloatOps) :
    ScanShape (s.set_shade_from_surrounding_trees i ops) s := by
  unfold GameState.set_shade_from_surrounding_trees
  cases h : s.trees i with
  | none => exact scanShape_rfl s
  | some t => exact modifyTree_shape s i _

lemma update_shade_shape (s : GameState) (i : Nat) (prev : TreeGrowthStage)
    (ops : FloatOps) :
    ScanShape (s.update_shade_for_surrounding_trees i prev ops) s := by
  unfold GameState.update_shade_for_surrounding_trees
  cases h : s.trees i with
  | none => exact scanShape_rfl s
  | some t =>
    apply foldl_preserves (fun st => ScanShape st s) _ _ s (scanShape_rfl s)
    intro st nt hst
    dsimp only
    split_ifs with h1 h2 h3 h4
    · exact hst
    · exact scanShape_trans (modifyTree_shape _ _ _)
        (scanShape_trans (modifyTree_shape _ _ _) hst)
    · exact scanShape_trans (modifyTree_shape _ _ _) hst
    · exact scanShape_trans (modifyTree_shape _ _ _) hst
    · exact hst

lemma update_shade_trees_self (s : GameState) (i : Nat) (prev : TreeGrowthStage)
    (ops : FloatOps) :
    (s.update_shade_for_surrounding_trees i prev ops).trees i = s.trees i := by
  unfold GameState.update_shade_for_surrounding_trees
  cases h : s.trees i with
  | none => exact h
  | some t =>
    refine foldl_preserves (fun st => st.trees i = some t) _ _ s h ?_
    intro st nt hst
    dsimp only
    split_ifs with h1 h2 h3 h4
    · exact hst
    · unfold GameState.modifyTree
      dsimp only
      rw [Function.update_noteq (fun hc => h1 hc.symm), Function.update_noteq
        (fun hc => h1 hc.symm)]
      exact hst
    · unfold GameState.modifyTree
      dsimp only
      rw [Function.update_noteq (fun hc => h1 hc.symm)]
      exact hst
    · unfold GameState.modifyTree
      dsimp only
      rw [Function.update_noteq (fun hc => h1 hc.symm)]
      exact hst
    · exact hst

lemma seedTrial_shape (ops : FloatOps) (pos : WorldPosition) (sp : TreeSpecies)
    (denom slotIdx : Nat) (acc : ScanAcc) :
    ScanShape (seedTrial ops pos sp denom slotIdx acc).s acc.s := by
  unfold seedTrial
  dsimp only
  by_cases h1 : (acc.rng.genChance 1 denom).1 = true
  · rw [if_pos h1]
    exact modifyTree_shape _ _ _
  · rw [if_neg h1]
    exact scanShape_rfl _

lemma seedTrial_growth_stage (ops : FloatOps) (pos : WorldPosition) (sp : TreeSpecies)
    (denom slotIdx : Nat) (acc : ScanAcc) (j : Nat) :
    ((seedTrial ops pos sp denom slotIdx acc).s.trees j).map (fun u => (u.growth, u.stage))
      = (acc.s.trees j).map (fun u => (u.growth, u.stage)) := by
  unfold seedTrial
  dsimp only
  by_cases h1 : (acc.rng.genChance 1 denom).1 = true
  · rw [if_pos h1]
    unfold GameState.modifyTree
    dsimp only
    by_cases hj : j = slotIdx
    · subst hj
      simp only [Function.update_same]
      cases acc.s.trees j <;> simp
    · simp [Function.update_noteq hj]
  · rw [if_neg h1]

lemma scanSlotGrown_shape (ops : FloatOps) (soil : SoilType) (slotIdx : Nat)
    (old_stage : TreeGrowthStage) (grown : Tree) (acc : ScanAcc) :
    ScanShape (scanSlotGrown ops soil slotIdx old_stage grown acc).s acc.s := by
  unfold scanSlotGrown
  dsimp only
  have hs1 : ScanShape (acc.s.modifyTree slotIdx (fun _ => grown)) acc.s :=
    modifyTree_shape _ _ _
  by_cases hstage : old_stage ≠ grown.stage
  · rw [if_pos hstage]
    have hs2 : ScanShape
        ((acc.s.modifyTree slotIdx fun _ => grown).update_shade_for_surrounding_trees
          slotIdx old_stage ops) acc.s :=
      scanShape_trans (update_shade_shape _ _ _ _) hs1
    generalize hU : (acc.s.modifyTree slotIdx fun _ => grown).update_shade_for_surrounding_trees
        slotIdx old_stage ops = U at hs2 ⊢
    cases h2 : U.trees slotIdx with
    | none => exact hs2
    | some tree2 =>
      cases grown.stage with
      | Mature | Old | Decline =>
        dsimp only
        by_cases htimer : tree2.seed_timer ≤ 0
        · rw [if_pos htimer]
          refine foldl_preserves (fun a : ScanAcc => ScanShape a.s acc.s) _ _ _ hs2 ?_
          intro x b hx
          exact scanShape_trans (seedTrial_shape _ _ _ _ _ _) hx
        · rw [if_neg htimer]
          exact hs2
      | Stump => exact hs2
      | Sprout => exact hs2
      | Seedling => exact hs2
      | Sapling => exact hs2
      | Snag => exact hs2
  · rw [if_neg hstage]
    generalize hU : acc.s.modifyTree slotIdx (fun _ => grown) = U at hs1 ⊢
    cases h2 : U.trees slotIdx with
    | none => exact hs1
    | some tree2 =>
      cases grown.stage with
      | Mature | Old | Decline =>
        dsimp only
        by_cases htimer : tree2.seed_timer ≤ 0
        · rw [if_pos htimer]
          refine foldl_preserves (fun a : ScanAcc => ScanShape a.s acc.s) _ _ _ hs1 ?_
          intro x b hx
          exact scanShape_trans (seedTrial_shape _ _ _ _ _ _) hx
        · rw [if_neg htimer]
          exact hs1
      | Stump => exact hs1
      | Sprout => exact hs1
      | Seedling => exact hs1
      | Sapling => exact hs1
      | Snag => exact hs1

lemma scanSlot_shape (ops : FloatOps) (dt : ℚ) (soil : SoilType) (slotIdx : Nat)
    (acc : ScanAcc) : ScanShape (scanSlot ops dt soil slotIdx acc).s acc.s := by
  unfold scanSlot
  cases htree : acc.s.trees slotIdx with
  | none => exact scanShape_rfl _
  | some tree =>
    dsimp only
    split_ifs <;>
      first
      | exact scanShape_rfl _
      | exact scanSlotGrown_shape _ _ _ _ _ _

lemma scanTile_shape (ops : FloatOps) (dt : ℚ) (tileIdx : Nat) (acc : ScanAcc) :
    ScanShape (scanTile ops dt tileIdx acc).s acc.s := by
  unfold scanTile
  refine foldl_preserves (fun a : ScanAcc => ScanShape a.s acc.s) _ _ _ (scanShape_rfl _) ?_
  intro x b hx
  exact scanShape_trans (scanSlot_shape _ _ _ _ _) hx

lemma scanPhase_shape (ops : FloatOps) (dt : ℚ) (s : GameState) (rng : RngState) :
    ScanShape (scanPhase ops dt s rng).s s := by
  unfold scanPhase
  refine foldl_preserves (fun a : ScanAcc => ScanShape a.s s) _ _ _ (scanShape_rfl _) ?_
  intro x b hx
  exact scanShape_trans (scanTile_shape _ _ _ _) hx

lemma bucketCountF_swap (f : Nat → Option Tree) (i j : Nat)
    (hi : i < NUM_TREES_PER_TILE) (hj : j < NUM_TREES_PER_TILE) :
    bucketCountF (swapSlots f i j) = bucketCountF f := by
  rcases eq_or_ne i j with hij | hij
  · subst hij
    have h : swapSlots f i i = f := by
      funext k
      unfold swapSlots
      split_ifs with h1
      · rw [h1]
      · rfl
    rw [h]
  · have hrepr : swapSlots f i j = Function.update (Function.update f i (f j)) j (f i) := by
      funext k
      unfold swapSlots
      by_cases h1 : k = i
      · subst h1
        rw [if_pos rfl, Function.update_noteq hij, Function.update_same]
      · by_cases h2 : k = j
        · subst h2
          rw [if_neg h1, if_pos rfl, Function.update_same]
        · rw [if_neg h1, if_neg h2, Function.update_noteq h2, Function.update_noteq h1]
    have hisum : ∀ (g : Nat → Option Tree) (a : Nat) (v : Option Tree),
        (fun x => if ((Function.update g a v) x).isSome then (1:Nat) else 0)
          = Function.update (fun x => if (g x).isSome then (1:Nat) else 0) a
              (if v.isSome then 1 else 0) := by
      intro g a v
      funext x
      by_cases hx : x = a
      · subst hx
        rw [Function.update_same, Function.update_same]
      · rw [Function.update_noteq hx, Function.update_noteq hx]
    rw [hrepr]
    unfold bucketCountF
    rw [Finset.card_filter, Finset.card_filter]
    rw [hisum, hisum]
    rw [Finset.sum_update_of_mem (Finset.mem_range.mpr hj)]
    rw [Finset.sum_update_of_mem
      (Finset.mem_sdiff.mpr ⟨Finset.mem_range.mpr hi, by simp [hij]⟩)]
    rw [Finset.sum_eq_sum_diff_singleton_add (Finset.mem_range.mpr hj)
      (fun x => if (f x).isSome then (1:Nat) else 0)]
    rw [Finset.sum_eq_sum_diff_singleton_add
      (Finset.mem_sdiff.mpr ⟨Finset.mem_range.mpr hi, by simp [hij]⟩)
      (fun x => if (f x).isSome then (1:Nat) else 0)]
    omega

lemma swapSlots_high (f : Nat → Option Tree) (i j k : Nat)
    (hi : i < NUM_TREES_PER_TILE) (hj : j < NUM_TREES_PER_TILE)
    (hk : NUM_TREES_PER_TILE ≤ k) : swapSlots f i j k = f k := by
  unfold swapSlots
  rw [if_neg (by omega), if_neg (by omega)]

lemma packLoop_frame :
    ∀ (fuel : Nat) (slots : Nat → Option Tree) (count read write : Nat),
      write ≤ read →
      ((∀ k, NUM_TREES_PER_TILE ≤ k →
          (packLoop fuel slots count read write).1 k = slots k) ∧
       bucketCountF (packLoop fuel slots count read write).1 = bucketCountF slots) := by
  intro fuel
  induction fuel with
  | zero => exact fun slots count read write _ => ⟨fun k _ => rfl, rfl⟩
  | succ fuel ih =>
    intro slots count read write hwr
    unfold packLoop
    by_cases hguard : write < count ∧ read < NUM_TREES_PER_TILE
    · rw [if_pos hguard]
      dsimp only
      by_cases hs : read ≠ write ∧ (slots read).isSome
      · rw [if_pos hs]
        obtain ⟨ih1, ih2⟩ := ih (swapSlots slots read write) count (read + 1)
          (if (swapSlots slots read write write).isSome then write + 1 else write)
          (by split_ifs <;> omega)
        constructor
        · intro k hk
          rw [ih1 k hk]
          exact swapSlots_high _ _ _ _ hguard.2 (lt_of_le_of_lt hwr hguard.2) hk
        · rw [ih2]
          exact bucketCountF_swap _ _ _ hguard.2 (lt_of_le_of_lt hwr hguard.2)
      · rw [if_neg hs]
        exact ih slots count (read + 1)
          (if (slots write).isSome then write + 1 else write) (by split_ifs <;> omega)
    · rw [if_neg hguard]
      exact ⟨fun k _ => rfl, rfl⟩

lemma packLoop_correct :
    ∀ (fuel : Nat) (slots : Nat → Option Tree) (count read write : Nat),
      read ≤ NUM_TREES_PER_TILE →
      fuel = NUM_TREES_PER_TILE - read →
      write ≤ read → write ≤ count → count ≤ NUM_TREES_PER_TILE →
      (∀ j, j < write → (slots j).isSome) →
      (∀ j, write ≤ j → j < read → slots j = none) →
      (∀ j, count ≤ j → j < NUM_TREES_PER_TILE → slots j = none) →
      ((∀ j, j < (packLoop fuel slots count read write).2 →
          ((packLoop fuel slots count read write).1 j).isSome) ∧
       (∀ j, (packLoop fuel slots count read write).2 ≤ j → j < NUM_TREES_PER_TILE →
          (packLoop fuel slots count read write).1 j = none) ∧
       (packLoop fuel slots count read write).2 ≤ NUM_TREES_PER_TILE) := by
  intro fuel
  induction fuel with
  | zero =>
    intro slots count read write hr hfuel hwr hwc hc h5 h6 h7
    have hread : read = NUM_TREES_PER_TILE := by omega
    exact ⟨h5, fun j hj1 hj2 => h6 j hj1 (by omega),
      (show write ≤ NUM_TREES_PER_TILE by omega)⟩
  | succ fuel ih =>
    intro slots count read write hr hfuel hwr hwc hc h5 h6 h7
    unfold packLoop
    by_cases hguard : write < count ∧ read < NUM_TREES_PER_TILE
    · rw [if_pos hguard]
      dsimp only
      by_cases hs : read ≠ write ∧ (slots read).isSome
      · rw [if_pos hs]
        have hwlt : write < read := lt_of_le_of_ne hwr (Ne.symm hs.1)
        have hsw : (swapSlots slots read write write).isSome := by
          unfold swapSlots
          rw [if_neg (by omega), if_pos rfl]
          exact hs.2
        rw [if_pos hsw]
        have hreadlt : read < count := by
          by_contra hge
          push_neg at hge
          have h0 := h7 read hge hguard.2
          rw [h0] at hs
          exact absurd hs.2 (by simp)
        refine ih (swapSlots slots read write) count (read + 1) (write + 1)
          (by omega) (by omega) (by omega) (by omega) hc ?_ ?_ ?_
        · intro j hj
          rcases Nat.lt_or_ge j write with hjw | hjw
          · unfold swapSlots
            rw [if_neg (by omega), if_neg (by omega)]
            exact h5 j hjw
          · have hje : j = write := by omega
            subst hje
            exact hsw
        · intro j hj1 hj2
          by_cases hjr : j = read
          · subst hjr
            unfold swapSlots
            rw [if_pos rfl]
            exact h6 write le_rfl hwlt
          · unfold swapSlots
            rw [if_neg hjr, if_neg (by omega)]
            exact h6 j (by omega) (by omega)
        · intro j hj1 hj2
          unfold swapSlots
          rw [if_neg (by omega), if_neg (by omega)]
          exact h7 j hj1 hj2
      · rw [if_neg hs]
        by_cases hsw : (slots write).isSome
        · rw [if_pos hsw]
          refine ih slots count (read + 1) (write + 1)
            (by omega) (by omega) (by omega) (by omega) hc ?_ ?_ h7
          · intro j hj
            rcases Nat.lt_or_ge j write with hjw | hjw
            · exact h5 j hjw
            · have hje : j = write := by omega
              subst hje
              exact hsw
          · intro j hj1 hj2
            by_cases hjr : j = read
            · rw [hjr]
              have h0 : ¬(slots read).isSome := fun hsome => hs ⟨(by omega), hsome⟩
              exact Option.not_isSome_iff_eq_none.mp h0
            · exact h6 j (by omega) (by omega)
        · rw [if_neg hsw]
          refine ih slots count (read + 1) write
            (by omega) (by omega) (by omega) hwc hc h5 ?_ h7
          intro j hj1 hj2
          by_cases hjr : j = read
          · rw [hjr]
            by_cases hrw : read = write
            · rw [hrw]
              exact Option.not_isSome_iff_eq_none.mp hsw
            · have h0 : ¬(slots read).isSome := fun hsome => hs ⟨hrw, hsome⟩
              exact Option.not_isSome_iff_eq_none.mp h0
          · exact h6 j hj1 (by omega)
    · rw [if_neg hguard]
      push_neg at hguard
      refine ⟨h5, ?_, (show write ≤ NUM_TREES_PER_TILE by omega)⟩
      intro j hj1 hj2
      rcases Nat.lt_or_ge j read with hjr | hjr
      · exact h6 j hj1 hjr
      · rcases Nat.lt_or_ge read NUM_TREES_PER_TILE with hc2 | hc2
        · exact h7 j (by omega) hj2
        · exact h6 j hj1 (by omega)

lemma bucketCountF_of_prefix (f : Nat → Option Tree) (w : Nat)
    (hw : w ≤ NUM_TREES_PER_TILE)
    (h1 : ∀ j, j < w → (f j).isSome)
    (h2 : ∀ j, w ≤ j → j < NUM_TREES_PER_TILE → f j = none) :
    bucketCountF f = w := by
  unfold bucketCountF
  have : (Finset.range NUM_TREES_PER_TILE).filter (fun j => (f j).isSome)
      = Finset.range w := by
    ext j
    simp only [Finset.mem_filter, Finset.mem_range]
    constructor
    · rintro ⟨hj, hsome⟩
      by_contra hge
      push_neg at hge
      rw [h2 j hge hj] at hsome
      exact absurd hsome (by simp)
    · intro hj
      exact ⟨by omega, h1 j hj⟩
  rw [this, Finset.card_range]

lemma slot_outside_bucket {ti t2 j : Nat} (hj : j < NUM_TREES_PER_TILE)
    (hne : t2 ≠ ti) :
    tree_slot_index t2 j < ti * NUM_TREES_PER_TILE ∨
      ti * NUM_TREES_PER_TILE + NUM_TREES_PER_TILE ≤ tree_slot_index t2 j := by
  unfold tree_slot_index NUM_TREES_PER_TILE at *
  rcases Nat.lt_or_ge t2 ti with h | h
  · left
    calc t2 * 10 + j < t2 * 10 + 10 := by omega
      _ ≤ ti * 10 := by
        have : t2 + 1 ≤ ti := h
        calc t2 * 10 + 10 = (t2 + 1) * 10 := by ring
          _ ≤ ti * 10 := Nat.mul_le_mul_right 10 this
  · right
    have h2 : ti + 1 ≤ t2 := by omega
    calc ti * 10 + 10 = (ti + 1) * 10 := by ring
      _ ≤ t2 * 10 := Nat.mul_le_mul_right 10 h2
      _ ≤ t2 * 10 + j := by omega

lemma pack_trees_frame (s : GameState) (ti : Nat) :
    (s.pack_trees ti).count_trees = s.count_trees ∧
    (s.pack_trees ti).tiles = s.tiles ∧
    (∀ t2, t2 ≠ ti → (s.pack_trees ti).per_tile_tree_count t2 = s.per_tile_tree_count t2) ∧
    (∀ t2, t2 ≠ ti → ∀ j, j < NUM_TREES_PER_TILE →
      (s.pack_trees ti).trees (tree_slot_index t2 j) = s.trees (tree_slot_index t2 j)) ∧
    (∀ t2, bucketCount (s.pack_trees ti).trees t2 = bucketCount s.trees t2) := by
  refine ⟨rfl, rfl, ?_, ?_, ?_⟩
  · intro t2 ht2
    unfold GameState.pack_trees
    exact Function.update_noteq ht2 _ _
  · intro t2 ht2 j hj
    unfold GameState.pack_trees
    dsimp only
    rw [if_neg]
    rcases slot_outside_bucket hj ht2 with h | h <;> omega
  · intro t2
    rcases eq_or_ne t2 ti with rfl | hne
    · have hb : ∀ j, j < NUM_TREES_PER_TILE →
          ((s.pack_trees t2).trees (tree_slot_index t2 j)).isSome
            = ((packLoop NUM_TREES_PER_TILE (fun j => s.trees (tree_slot_index t2 j))
                (s.per_tile_tree_count t2) 0 0).1 j).isSome := by
        intro j hj
        have harg : tree_slot_index t2 j - t2 * NUM_TREES_PER_TILE = j := by
          simp only [tree_slot_index, NUM_TREES_PER_TILE]
          omega
        have hcond : t2 * NUM_TREES_PER_TILE ≤ tree_slot_index t2 j ∧
            tree_slot_index t2 j < t2 * NUM_TREES_PER_TILE + NUM_TREES_PER_TILE := by
          simp only [tree_slot_index, NUM_TREES_PER_TILE] at hj ⊢
          omega
        unfold GameState.pack_trees
        dsimp only
        rw [if_pos hcond, harg]
      have h1 : bucketCount (s.pack_trees t2).trees t2
          = bucketCountF (packLoop NUM_TREES_PER_TILE
              (fun j => s.trees (tree_slot_index t2 j)) (s.per_tile_tree_count t2) 0 0).1 := by
        unfold bucketCount bucketCountF
        congr 1
        apply Finset.filter_congr
        intro j hj
        rw [Finset.mem_range] at hj
        simp [hb j hj]
      rw [h1, (packLoop_frame _ _ _ _ _ (le_refl 0)).2]
      rfl
    · apply bucketCount_congr
      intro j hj
      unfold GameState.pack_trees
      dsimp only
      rw [if_neg]
      rcases slot_outside_bucket hj hne with h | h <;> omega

lemma pack_trees_tileInv (s : GameState) (ti : Nat) (h : PreTileInv s ti) :
    TileInv (s.pack_trees ti) ti := by
  have hcorrect := packLoop_correct NUM_TREES_PER_TILE
    (fun j => s.trees (tree_slot_index ti j)) (s.per_tile_tree_count ti) 0 0
    (by omega) (by omega) (le_refl 0) (Nat.zero_le _) h.1
    (fun j hj => absurd hj (by omega))
    (fun j hj1 hj2 => absurd (lt_of_le_of_lt hj1 hj2) (lt_irrefl 0))
    (fun j hj1 hj2 => by
      have := h.2 j hj2
      cases hopt : s.trees (tree_slot_index ti j) with
      | none => exact hopt
      | some t =>
        exfalso
        have := this (by rw [hopt]; rfl)
        omega)
  obtain ⟨c1, c2, c3⟩ := hcorrect
  have hb : ∀ j, j < NUM_TREES_PER_TILE →
      (s.pack_trees ti).trees (tree_slot_index ti j)
        = (packLoop NUM_TREES_PER_TILE (fun j => s.trees (tree_slot_index ti j))
            (s.per_tile_tree_count ti) 0 0).1 j := by
    intro j hj
    have harg : tree_slot_index ti j - ti * NUM_TREES_PER_TILE = j := by
      simp only [tree_slot_index, NUM_TREES_PER_TILE]
      omega
    have hcond : ti * NUM_TREES_PER_TILE ≤ tree_slot_index ti j ∧
        tree_slot_index ti j < ti * NUM_TREES_PER_TILE + NUM_TREES_PER_TILE := by
      simp only [tree_slot_index, NUM_TREES_PER_TILE] at hj ⊢
      omega
    unfold GameState.pack_trees
    dsimp only
    rw [if_pos hcond, harg]
  have hcount : (s.pack_trees ti).per_tile_tree_count ti
      = (packLoop NUM_TREES_PER_TILE (fun j => s.trees (tree_slot_index ti j))
          (s.per_tile_tree_count ti) 0 0).2 := by
    unfold GameState.pack_trees
    dsimp only
    rw [Function.update_same]
  constructor
  · rw [hcount]
    have hbc : bucketCount (s.pack_trees ti).trees ti
        = bucketCountF (packLoop NUM_TREES_PER_TILE
            (fun j => s.trees (tree_slot_index ti j)) (s.per_tile_tree_count ti) 0 0).1 := by
      unfold bucketCount bucketCountF
      congr 1
      apply Finset.filter_congr
      intro j hj
      rw [Finset.mem_range] at hj
      simp [hb j hj]
    rw [hbc, bucketCountF_of_prefix _ _ c3 c1 c2]
  · intro j hj hsome
    rw [hcount]
    rw [hb j hj] at hsome
    by_contra hge
    push_neg at hge
    rw [c2 j hge hj] at hsome
    exact absurd hsome (by simp)

lemma occupiedTotal_congr {a b : GameState}
    (h : ∀ ti, ti < GRID_SIZE → bucketCount a.trees ti = bucketCount b.trees ti) :
    occupiedTotal a = occupiedTotal b :=
  Finset.sum_congr rfl (fun ti hti => h ti (Finset.mem_range.mp hti))

lemma occupiedTotal_shape {a b : GameState} (h : ScanShape a b) :
    occupiedTotal a = occupiedTotal b :=
  occupiedTotal_congr (fun _ _ => bucketCount_congr (fun _ _ => h.2.2.2 _))

lemma occupiedTotal_update_none_le (s : GameState) (k : Nat) :
    occupiedTotal { s with trees := Function.update s.trees k none } ≤ occupiedTotal s :=
  Finset.sum_le_sum (fun _ _ => bucketCount_update_none_le)

lemma bucketCount_update_some_le_succ {trees : Nat → Option Tree} {ti k : Nat} {v : Tree} :
    bucketCount (Function.update trees k (some v)) ti ≤ bucketCount trees ti + 1 := by
  unfold bucketCount
  calc ((Finset.range NUM_TREES_PER_TILE).filter
        (fun j => ((Function.update trees k (some v)) (tree_slot_index ti j)).isSome)).card
      ≤ (insert (k - ti * NUM_TREES_PER_TILE) ((Finset.range NUM_TREES_PER_TILE).filter
          (fun j => (trees (tree_slot_index ti j)).isSome))).card := by
        apply Finset.card_le_card
        intro j hj
        rw [Finset.mem_filter] at hj
        rw [Finset.mem_insert]
        by_cases hk : tree_slot_index ti j = k
        · left
          rw [← hk]
          unfold tree_slot_index
          omega
        · right
          rw [Finset.mem_filter]
          refine ⟨hj.1, ?_⟩
          have h2 := hj.2
          rwa [Function.update_noteq hk] at h2
    _ ≤ ((Finset.range NUM_TREES_PER_TILE).filter
          (fun j => (trees (tree_slot_index ti j)).isSome)).card + 1 :=
        Finset.card_insert_le _ _

lemma occupiedTotal_update_some_le (s : GameState) (k : Nat) (v : Tree) :
    occupiedTotal { s with trees := Function.update s.trees k (some v) }
      ≤ occupiedTotal s + 1 := by
  unfold occupiedTotal
  calc ∑ ti ∈ Finset.range GRID_SIZE,
        bucketCount (Function.update s.trees k (some v)) ti
      ≤ ∑ ti ∈ Finset.range GRID_SIZE,
          (bucketCount s.trees ti + if ti = k / NUM_TREES_PER_TILE then 1 else 0) := by
        apply Finset.sum_le_sum
        intro ti _
        by_cases h : ti = k / NUM_TREES_PER_TILE
        · rw [if_pos h]
          exact bucketCount_update_some_le_succ
        · rw [if_neg h, bucketCount_update_ne h]
          omega
    _ = (∑ ti ∈ Finset.range GRID_SIZE, bucketCount s.trees ti)
          + ∑ ti ∈ Finset.range GRID_SIZE, (if ti = k / NUM_TREES_PER_TILE then 1 else 0) :=
        Finset.sum_add_distrib
    _ ≤ (∑ ti ∈ Finset.range GRID_SIZE, bucketCount s.trees ti) + 1 := by
        have : ∑ ti ∈ Finset.range GRID_SIZE,
            (if ti = k / NUM_TREES_PER_TILE then (1:Nat) else 0) ≤ 1 := by
          rw [Finset.sum_ite_eq' (Finset.range GRID_SIZE) (k / NUM_TREES_PER_TILE)
            (fun _ => (1:Nat))]
          split_ifs <;> omega
        omega

lemma storeOk_of_shape {a b : GameState} {repack : List Nat}
    (hs : ScanShape a b) (h : StoreOk repack b) : StoreOk repack a :=
  fun ti hti =>
    ⟨fun hmem => preTileInv_of_shape hs ((h ti hti).1 hmem),
     fun hmem => tileInv_of_shape hs ((h ti hti).2 hmem)⟩

lemma mem_insertTile {l : List Nat} {t a : Nat} :
    a ∈ insertTile l t ↔ a ∈ l ∨ a = t := by
  unfold insertTile
  split_ifs with h
  · constructor
    · exact Or.inl
    · rintro (ha | rfl)
      · exact ha
      · exact h
  · rw [List.mem_append, List.mem_singleton]

lemma storeOk_insert {repack : List Nat} {s : GameState} (h : StoreOk repack s)
    (t0 : Nat) : StoreOk (insertTile repack t0) s := by
  intro ti hti
  constructor
  · intro hmem
    rcases mem_insertTile.mp hmem with hmem2 | rfl
    · exact (h ti hti).1 hmem2
    · by_cases hm : ti ∈ repack
      · exact (h ti hti).1 hm
      · exact tileInv_pre ((h ti hti).2 hm)
  · intro hmem
    exact (h ti hti).2 (fun hc => hmem (mem_insertTile.mpr (Or.inl hc)))

lemma storeOk_set_none (s : GameState) (i : Nat) (repack : List Nat)
    (h : StoreOk repack s) (hmem : i / NUM_TREES_PER_TILE ∈ repack) :
    StoreOk repack { s with trees := Function.update s.trees i none } := by
  intro tj htj
  refine ⟨fun hm => ?_, fun hm => ?_⟩
  · have hpre := (h tj htj).1 hm
    refine ⟨hpre.1, ?_⟩
    intro j hj hsome
    dsimp only at hsome
    by_cases hk : tree_slot_index tj j = i
    · rw [hk] at hsome
      simp only [Function.update_same] at hsome
      exact absurd hsome (by simp)
    · rw [Function.update_noteq hk] at hsome
      exact hpre.2 j hj hsome
  · have hne : tj ≠ i / NUM_TREES_PER_TILE := fun hc => hm (hc ▸ hmem)
    have htile := (h tj htj).2 hm
    refine ⟨?_, ?_⟩
    · show s.per_tile_tree_count tj = bucketCount (Function.update s.trees i none) tj
      rw [bucketCount_update_ne hne]
      exact htile.1
    · intro j hj hsome
      dsimp only at hsome
      rw [Function.update_noteq (slot_of_bucket_ne hj hne)] at hsome
      exact htile.2 j hj hsome

lemma storeOk_append_slot (s : GameState) (ti : Nat) (v : Tree) (repack : List Nat)
    (h : StoreOk repack s) (hroom : s.per_tile_tree_count ti < NUM_TREES_PER_TILE) :
    StoreOk repack
      { s with
        trees := Function.update s.trees
          (tree_slot_index ti (s.per_tile_tree_count ti)) (some v)
        per_tile_tree_count := Function.update s.per_tile_tree_count ti
          (s.per_tile_tree_count ti + 1)
        count_trees := s.count_trees + 1 } := by
  intro tj htj
  rcases eq_or_ne tj ti with rfl | hne
  · refine ⟨fun hm => ?_, fun hm => ?_⟩
    · have hpre := (h tj htj).1 hm
      refine ⟨?_, ?_⟩
      · show Function.update s.per_tile_tree_count tj (s.per_tile_tree_count tj + 1) tj
            ≤ NUM_TREES_PER_TILE
        rw [Function.update_same]
        omega
      · intro j hj hsome
        dsimp only at hsome
        show j < Function.update s.per_tile_tree_count tj (s.per_tile_tree_count tj + 1) tj
        rw [Function.update_same]
        by_cases hjn : j = s.per_tile_tree_count tj
        · omega
        · have hne2 : tree_slot_index tj j ≠ tree_slot_index tj (s.per_tile_tree_count tj) :=
            fun hc => hjn (slot_index_inj hj hroom hc).2
          rw [Function.update_noteq hne2] at hsome
          have := hpre.2 j hj hsome
          omega
    · have htile := (h tj htj).2 hm
      have hnone : s.trees (tree_slot_index tj (s.per_tile_tree_count tj)) = none := by
        cases hopt : s.trees (tree_slot_index tj (s.per_tile_tree_count tj)) with
        | none => rfl
        | some t =>
          exfalso
          have := htile.2 (s.per_tile_tree_count tj) hroom (by rw [hopt]; rfl)
          omega
      refine ⟨?_, ?_⟩
      · show Function.update s.per_tile_tree_count tj (s.per_tile_tree_count tj + 1) tj
            = bucketCount (Function.update s.trees
                (tree_slot_index tj (s.per_tile_tree_count tj)) (some v)) tj
        rw [Function.update_same, bucketCount_update_some hroom hnone, ← htile.1]
      · intro j hj hsome
        dsimp only at hsome
        show j < Function.update s.per_tile_tree_count tj (s.per_tile_tree_count tj + 1) tj
        rw [Function.update_same]
        by_cases hjn : j = s.per_tile_tree_count tj
        · omega
        · have hne2 : tree_slot_index tj j ≠ tree_slot_index tj (s.per_tile_tree_count tj) :=
            fun hc => hjn (slot_index_inj hj hroom hc).2
          rw [Function.update_noteq hne2] at hsome
          have := htile.2 j hj hsome
          omega
  · have hcount : Function.update s.per_tile_tree_count ti (s.per_tile_tree_count ti + 1) tj
        = s.per_tile_tree_count tj := Function.update_noteq hne _ _
    have hdiv : tj ≠ tree_slot_index ti (s.per_tile_tree_count ti) / NUM_TREES_PER_TILE := by
      rw [slot_index_div hroom]
      exact hne
    refine ⟨fun hm => ?_, fun hm => ?_⟩
    · have hpre := (h tj htj).1 hm
      refine ⟨?_, ?_⟩
      · show Function.update s.per_tile_tree_count ti (s.per_tile_tree_count ti + 1) tj
            ≤ NUM_TREES_PER_TILE
        rw [hcount]
        exact hpre.1
      · intro j hj hsome
        dsimp only at hsome
        show j < Function.update s.per_tile_tree_count ti (s.per_tile_tree_count ti + 1) tj
        rw [hcount]
        rw [Function.update_noteq (slot_of_bucket_ne hj hdiv)] at hsome
        exact hpre.2 j hj hsome
    · have htile := (h tj htj).2 hm
      refine ⟨?_, ?_⟩
      · show Function.update s.per_tile_tree_count ti (s.per_tile_tree_count ti + 1) tj
            = bucketCount (Function.update s.trees
                (tree_slot_index ti (s.per_tile_tree_count ti)) (some v)) tj
        rw [hcount, bucketCount_update_ne hdiv]
        exact htile.1
      · intro j hj hsome
        dsimp only at hsome
        show j < Function.update s.per_tile_tree_count ti (s.per_tile_tree_count ti + 1) tj
        rw [hcount]
        rw [Function.update_noteq (slot_of_bucket_ne hj hdiv)] at hsome
        exact htile.2 j hj hsome

lemma plant_tree_ok (s : GameState) (pos : WorldPosition) (species : TreeSpecies)
    (ops : FloatOps) (repack : List Nat) (h : StoreOk repack s) :
    StoreOk repack (s.plant_tree pos species ops) ∧
    s.count_trees ≤ (s.plant_tree pos species ops).count_trees ∧
    s.count_trees + occupiedTotal (s.plant_tree pos species ops)
      ≤ (s.plant_tree pos species ops).count_trees + occupiedTotal s := by
  unfold GameState.plant_tree
  dsimp only
  by_cases hroom : s.per_tile_tree_count (tile_index pos.coord.x pos.coord.y)
      < NUM_TREES_PER_TILE
  · rw [if_pos hroom]
    have hok1 := storeOk_append_slot s (tile_index pos.coord.x pos.coord.y)
      (Tree.new species pos) repack h hroom
    have hshape := set_shade_shape
      { s with
        trees := Function.update s.trees
          (tree_slot_index (tile_index pos.coord.x pos.coord.y)
            (s.per_tile_tree_count (tile_index pos.coord.x pos.coord.y)))
          (some (Tree.new species pos))
        per_tile_tree_count := Function.update s.per_tile_tree_count
          (tile_index pos.coord.x pos.coord.y)
          (s.per_tile_tree_count (tile_index pos.coord.x pos.coord.y) + 1)
        count_trees := s.count_trees + 1 }
      (tree_slot_index (tile_index pos.coord.x pos.coord.y)
        (s.per_tile_tree_count (tile_index pos.coord.x pos.coord.y))) ops
    refine ⟨storeOk_of_shape hshape hok1, ?_, ?_⟩
    · rw [hshape.2.1]
      exact Nat.le_succ _
    · rw [hshape.2.1, occupiedTotal_shape hshape]
      have hocc := occupiedTotal_update_some_le s
        (tree_slot_index (tile_index pos.coord.x pos.coord.y)
          (s.per_tile_tree_count (tile_index pos.coord.x pos.coord.y)))
        (Tree.new species pos)
      have hocc2 : occupiedTotal
          { s with
            trees := Function.update s.trees
              (tree_slot_index (tile_index pos.coord.x pos.coord.y)
                (s.per_tile_tree_count (tile_index pos.coord.x pos.coord.y)))
              (some (Tree.new species pos))
            per_tile_tree_count := Function.update s.per_tile_tree_count
              (tile_index pos.coord.x pos.coord.y)
              (s.per_tile_tree_count (tile_index pos.coord.x pos.coord.y) + 1)
            count_trees := s.count_trees + 1 }
          ≤ occupiedTotal s + 1 := hocc
      dsimp only
      omega
  · rw [if_neg hroom]
    exact ⟨h, le_rfl, le_rfl⟩

lemma kill_tree_ok (s : GameState) (i : Nat) (repack : List Nat)
    (h : StoreOk repack s) (hmem : i / NUM_TREES_PER_TILE ∈ repack) :
    StoreOk repack (s.kill_tree i) ∧
    (s.kill_tree i).count_trees = s.count_trees ∧
    occupiedTotal (s.kill_tree i) ≤ occupiedTotal s := by
  unfold GameState.kill_tree
  cases htree : s.trees i with
  | none => exact ⟨h, rfl, le_rfl⟩
  | some t =>
    obtain ⟨p0, sp0, st0, g0, b0, gt0, sd0, sf0⟩ := t
    cases st0 <;> dsimp only
    case Sprout =>
      exact ⟨storeOk_set_none s i repack h hmem, rfl, occupiedTotal_update_none_le s i⟩
    case Seedling =>
      exact ⟨storeOk_set_none s i repack h hmem, rfl, occupiedTotal_update_none_le s i⟩
    case Sapling =>
      exact ⟨storeOk_of_shape (setSome_shape s i _ (by rw [htree]; rfl)) h, rfl,
        le_of_eq (occupiedTotal_shape (setSome_shape s i _ (by rw [htree]; rfl)))⟩
    case Mature =>
      exact ⟨storeOk_of_shape (setSome_shape s i _ (by rw [htree]; rfl)) h, rfl,
        le_of_eq (occupiedTotal_shape (setSome_shape s i _ (by rw [htree]; rfl)))⟩
    case Old =>
      exact ⟨storeOk_of_shape (setSome_shape s i _ (by rw [htree]; rfl)) h, rfl,
        le_of_eq (occupiedTotal_shape (setSome_shape s i _ (by rw [htree]; rfl)))⟩
    case Decline =>
      exact ⟨storeOk_of_shape (setSome_shape s i _ (by rw [htree]; rfl)) h, rfl,
        le_of_eq (occupiedTotal_shape (setSome_shape s i _ (by rw [htree]; rfl)))⟩
    case Snag => exact ⟨h, rfl, le_rfl⟩
    case Stump => exact ⟨h, rfl, le_rfl⟩

lemma delete_tree_ok (s : GameState) (i : Nat) (repack : List Nat)
    (h : StoreOk repack s) (hmem : i / NUM_TREES_PER_TILE ∈ repack) :
    StoreOk repack (s.delete_tree i) ∧
    (s.delete_tree i).count_trees = s.count_trees ∧
    occupiedTotal (s.delete_tree i) ≤ occupiedTotal s :=
  ⟨storeOk_set_none s i repack h hmem, rfl, occupiedTotal_update_none_le s i⟩

lemma applyEvent_ok (ops : FloatOps) (acc : ApplyAcc) (e : Event)
    (h : StoreOk acc.repack acc.s) :
    StoreOk (applyEvent ops acc e).repack (applyEvent ops acc e).s ∧
    acc.s.count_trees ≤ (applyEvent ops acc e).s.count_trees ∧
    acc.s.count_trees + occupiedTotal (applyEvent ops acc e).s
      ≤ (applyEvent ops acc e).s.count_trees + occupiedTotal acc.s := by
  cases e with
  | plant pos species => exact plant_tree_ok acc.s pos species ops acc.repack h
  | kill i =>
    dsimp only [applyEvent]
    have h2 := storeOk_insert h (i / NUM_TREES_PER_TILE)
    have hk := kill_tree_ok acc.s i (insertTile acc.repack (i / NUM_TREES_PER_TILE)) h2
      (mem_insertTile.mpr (Or.inr rfl))
    exact ⟨hk.1, le_of_eq hk.2.1.symm, by have := hk.2.2; have := hk.2.1; omega⟩
  | delete i =>
    dsimp only [applyEvent]
    have h2 := storeOk_insert h (i / NUM_TREES_PER_TILE)
    have hk := delete_tree_ok acc.s i (insertTile acc.repack (i / NUM_TREES_PER_TILE)) h2
      (mem_insertTile.mpr (Or.inr rfl))
    exact ⟨hk.1, le_of_eq hk.2.1.symm, by have := hk.2.2; have := hk.2.1; omega⟩

lemma applyFold_ok (ops : FloatOps) :
    ∀ (events : List Event) (acc : ApplyAcc), StoreOk acc.repack acc.s →
    (StoreOk (events.foldl (applyEvent ops) acc).repack
        (events.foldl (applyEvent ops) acc).s ∧
     acc.s.count_trees ≤ (events.foldl (applyEvent ops) acc).s.count_trees ∧
     acc.s.count_trees + occupiedTotal (events.foldl (applyEvent ops) acc).s
      ≤ (events.foldl (applyEvent ops) acc).s.count_trees + occupiedTotal acc.s) := by
  intro events
  induction events with
  | nil => exact fun acc h => ⟨h, le_rfl, le_rfl⟩
  | cons e es ih =>
    intro acc h
    simp only [List.foldl_cons]
    have he := applyEvent_ok ops acc e h
    have hrest := ih (applyEvent ops acc e) he.1
    refine ⟨hrest.1, le_trans he.2.1 hrest.2.1, ?_⟩
    have h1 := he.2.2
    have h2 := hrest.2.2
    omega

lemma packFold_inv :
    ∀ (l : List Nat) (s : GameState),
      (∀ ti, ti < GRID_SIZE → ti ∈ l → PreTileInv s ti) →
      (∀ ti, ti < GRID_SIZE → ti ∉ l → TileInv s ti) →
      ((∀ ti, ti < GRID_SIZE →
          TileInv (l.foldl (fun st t2 => st.pack_trees t2) s) ti) ∧
       (l.foldl (fun st t2 => st.pack_trees t2) s).count_trees = s.count_trees ∧
       occupiedTotal (l.foldl (fun st t2 => st.pack_trees t2) s) = occupiedTotal s) := by
  intro l
  induction l with
  | nil =>
    exact fun s hpre htile =>
      ⟨fun ti hti => htile ti hti (List.not_mem_nil ti), rfl, rfl⟩
  | cons a rest ih =>
    intro s hpre htile
    simp only [List.foldl_cons]
    have hframe := pack_trees_frame s a
    have h1 : ∀ ti, ti < GRID_SIZE → ti ∈ rest → PreTileInv (s.pack_trees a) ti := by
      intro ti hti hmem
      rcases eq_or_ne ti a with rfl | hne
      · exact tileInv_pre (pack_trees_tileInv s ti (hpre ti hti (List.mem_cons_self _ _)))
      · have hp := hpre ti hti (List.mem_cons_of_mem a hmem)
        refine ⟨?_, ?_⟩
        · rw [hframe.2.2.1 ti hne]
          exact hp.1
        · intro j hj hsome
          rw [hframe.2.2.1 ti hne]
          apply hp.2 j hj
          rwa [hframe.2.2.2.1 ti hne j hj] at hsome
    have h2 : ∀ ti, ti < GRID_SIZE → ti ∉ rest → TileInv (s.pack_trees a) ti := by
      intro ti hti hmem
      rcases eq_or_ne ti a with rfl | hne
      · exact pack_trees_tileInv s ti (hpre ti hti (List.mem_cons_self _ _))
      · have ht := htile ti hti (fun hc => by
          rcases List.mem_cons.mp hc with rfl | hc2
          · exact hne rfl
          · exact hmem hc2)
        refine ⟨?_, ?_⟩
        · rw [hframe.2.2.1 ti hne, hframe.2.2.2.2 ti]
          exact ht.1
        · intro j hj hsome
          rw [hframe.2.2.1 ti hne]
          apply ht.2 j hj
          rwa [hframe.2.2.2.1 ti hne j hj] at hsome
    obtain ⟨ihInv, ihCount, ihOcc⟩ := ih (s.pack_trees a) h1 h2
    refine ⟨ihInv, ?_, ?_⟩
    · rw [ihCount, hframe.1]
    · rw [ihOcc]
      exact occupiedTotal_congr (fun ti _ => hframe.2.2.2.2 ti)

lemma plant_tree_count (s : GameState) (pos : WorldPosition) (species : TreeSpecies)
    (ops : FloatOps) :
    (s.plant_tree pos species ops).count_trees
      = if s.per_tile_tree_count (tile_index pos.coord.x pos.coord.y) < NUM_TREES_PER_TILE
        then s.count_trees + 1 else s.count_trees := by
  unfold GameState.plant_tree
  dsimp only
  by_cases hroom : s.per_tile_tree_count (tile_index pos.coord.x pos.coord.y)
      < NUM_TREES_PER_TILE
  · rw [if_pos hroom, if_pos hroom]
    exact (set_shade_shape _ _ _).2.1
  · rw [if_neg hroom, if_neg hroom]

lemma kill_tree_count (s : GameState) (i : Nat) :
    (s.kill_tree i).count_trees = s.count_trees := by
  unfold GameState.kill_tree
  cases htree : s.trees i with
  | none => rfl
  | some t =>
    obtain ⟨p0, sp0, st0, g0, b0, gt0, sd0, sf0⟩ := t
    cases st0 <;> rfl

lemma applyEvent_count_mono (ops : FloatOps) (acc : ApplyAcc) (e : Event) :
    acc.s.count_trees ≤ (applyEvent ops acc e).s.count_trees := by
  cases e with
  | plant pos species =>
    dsimp only [applyEvent]
    rw [plant_tree_count]
    split_ifs <;> omega
  | kill i =>
    dsimp only [applyEvent]
    exact le_of_eq (kill_tree_count acc.s i).symm
  | delete i =>
    dsimp only [applyEvent]
    exact le_rfl

lemma applyFold_count_mono (ops : FloatOps) :
    ∀ (events : List Event) (acc : ApplyAcc),
      acc.s.count_trees ≤ (events.foldl (applyEvent ops) acc).s.count_trees := by
  intro events
  induction events with
  | nil => exact fun acc => le_rfl
  | cons e es ih =>
    intro acc
    simp only [List.foldl_cons]
    exact le_trans (applyEvent_count_mono ops acc e) (ih _)

lemma packFold_count :
    ∀ (l : List Nat) (s : GameState),
      (l.foldl (fun st t2 => st.pack_trees t2) s).count_trees = s.count_trees := by
  intro l
  induction l with
  | nil => exact fun s => rfl
  | cons a rest ih =>
    intro s
    simp only [List.foldl_cons]
    rw [ih, (pack_trees_frame s a).1]

/-- The trivially packed initial state: no trees anywhere. -/
lemma emptyState_inv : Inv emptyState := by
  intro ti _
  refine ⟨?_, ?_⟩
  · show emptyState.per_tile_tree_count ti = bucketCount emptyState.trees ti
    unfold bucketCount emptyState
    simp
  · intro j hj hsome
    exact absurd hsome (by simp [emptyState])

lemma occupiedTotal_emptyState : occupiedTotal emptyState = 0 := by
  unfold occupiedTotal
  apply Finset.sum_eq_zero
  intro ti _
  unfold bucketCount emptyState
  simp

/-- A concrete deterministic RNG oracle for witnesses. -/
def rng0 : RngState := ⟨0, fun _ _ _ => false, fun _ lo _ => lo⟩

/-- **C1.** The packed-front store invariant — for every tile, the recorded
per-tile count equals the number of occupied slots of its bucket and every
occupied slot sits at an in-bucket index strictly below that count — is
preserved by one full update tick (scan phase, deferred event application,
repacking of every affected tile). -/
theorem C1_packed_front_invariant (s : GameState) (dt_s : ℚ) (rng : RngState)
    (ops : FloatOps) (hinv : Inv s) : Inv (s.update_trees dt_s rng ops).1 := by
  unfold GameState.update_trees
  dsimp only
  have hscan := scanPhase_shape ops dt_s s rng
  generalize hgen : scanPhase ops dt_s s rng = scanned at hscan ⊢
  have hstore0 : StoreOk [] scanned.s := by
    intro ti hti
    exact ⟨fun hmem => absurd hmem (List.not_mem_nil _),
           fun _ => tileInv_of_shape hscan (hinv ti hti)⟩
  have happly := applyFold_ok ops scanned.events
    { s := scanned.s, repack := [] } hstore0
  have hfold := packFold_inv
    (scanned.events.foldl (applyEvent ops) { s := scanned.s, repack := [] }).repack
    (scanned.events.foldl (applyEvent ops) { s := scanned.s, repack := [] }).s
    (fun tj htj hmem => (happly.1 tj htj).1 hmem)
    (fun tj htj hmem => (happly.1 tj htj).2 hmem)
  exact fun ti hti => hfold.1 ti hti

theorem C1_packed_front_invariant_witness :
    Inv emptyState ∧ Inv ((emptyState.update_trees 1 rng0 idOps).1) :=
  ⟨emptyState_inv, C1_packed_front_invariant emptyState 1 rng0 idOps emptyState_inv⟩

/-- **C10.** count_trees accounting: a plant increments it by exactly one when
the target tile has room (and leaves it unchanged when the tile is full);
delete_tree, kill_tree and pack_trees never touch it, so it is nondecreasing
across a tick; and, starting from a state satisfying the packed-front
invariant where count_trees dominates the number of occupied slots, after a
tick it still dominates, strictly whenever the tick deleted at least one tree
(net slot loss exceeding the count gain). -/
theorem C10_count_trees_accounting (s : GameState) (dt_s : ℚ) (rng : RngState)
    (ops : FloatOps) (pos : WorldPosition) (species : TreeSpecies) (i ti : Nat) :
    ((s.plant_tree pos species ops).count_trees
        = if s.per_tile_tree_count (tile_index pos.coord.x pos.coord.y)
            < NUM_TREES_PER_TILE
          then s.count_trees + 1 else s.count_trees) ∧
    (s.delete_tree i).count_trees = s.count_trees ∧
    (s.kill_tree i).count_trees = s.count_trees ∧
    (s.pack_trees ti).count_trees = s.count_trees ∧
    s.count_trees ≤ (s.update_trees dt_s rng ops).1.count_trees ∧
    (Inv s → occupiedTotal s ≤ s.count_trees →
      occupiedTotal (s.update_trees dt_s rng ops).1
        ≤ (s.update_trees dt_s rng ops).1.count_trees ∧
      (occupiedTotal (s.update_trees dt_s rng ops).1 + s.count_trees
          < occupiedTotal s + (s.update_trees dt_s rng ops).1.count_trees →
        occupiedTotal (s.update_trees dt_s rng ops).1
          < (s.update_trees dt_s rng ops).1.count_trees)) := by
  refine ⟨plant_tree_count s pos species ops, rfl, kill_tree_count s i,
    (pack_trees_frame s ti).1, ?_, ?_⟩
  · unfold GameState.update_trees
    dsimp only
    have hscan := scanPhase_shape ops dt_s s rng
    generalize hgen : scanPhase ops dt_s s rng = scanned at hscan ⊢
    rw [packFold_count]
    calc s.count_trees = scanned.s.count_trees := hscan.2.1.symm
      _ ≤ _ := applyFold_count_mono ops scanned.events { s := scanned.s, repack := [] }
  · intro hinv hocc
    unfold GameState.update_trees
    dsimp only
    have hscan := scanPhase_shape ops dt_s s rng
    generalize hgen : scanPhase ops dt_s s rng = scanned at hscan ⊢
    have hstore0 : StoreOk [] scanned.s := by
      intro tj htj
      exact ⟨fun hmem => absurd hmem (List.not_mem_nil _),
             fun _ => tileInv_of_shape hscan (hinv tj htj)⟩
    have happly := applyFold_ok ops scanned.events
      { s := scanned.s, repack := [] } hstore0
    have hfold := packFold_inv
      (scanned.events.foldl (applyEvent ops) { s := scanned.s, repack := [] }).repack
      (scanned.events.foldl (applyEvent ops) { s := scanned.s, repack := [] }).s
      (fun tj htj hmem => (happly.1 tj htj).1 hmem)
      (fun tj htj hmem => (happly.1 tj htj).2 hmem)
    have h1 : scanned.s.count_trees = s.count_trees := hscan.2.1
    have h2 : occupiedTotal scanned.s = occupiedTotal s :=
      occupiedTotal_shape hscan
    have h3 := happly.2.1
    have h4 := happly.2.2
    dsimp only at h3 h4
    rw [hfold.2.1, hfold.2.2]
    constructor
    · omega
    · intro hstrict
      omega
theorem C10_count_trees_accounting_witness :
    Inv emptyState ∧ occupiedTotal emptyState ≤ emptyState.count_trees ∧
    occupiedTotal ((emptyState.update_trees 1 rng0 idOps).1)
      ≤ ((emptyState.update_trees 1 rng0 idOps).1).count_trees := by
  refine ⟨emptyState_inv, ?_, ?_⟩
  · rw [occupiedTotal_emptyState]
    exact Nat.zero_le _
  · have h := (C10_count_trees_accounting emptyState 1 rng0 idOps
      stumpAshTree.position TreeSpecies.Ash 0 0).2.2.2.2.2 emptyState_inv
      (by rw [occupiedTotal_emptyState]; exact Nat.zero_le _)
    exact h.1

/-- The growth multiplier computed for an occupied slot during the scan
phase, exactly as the source computes it. -/
def growthMultiplier (soil_type : SoilType) (tree : Tree) : ℚ :=
  let soil_multiplier : ℚ := if soil_type = tree.species.soil_preference then 1 else 2/5
  if tree.is_alive then 1 * (tree.shade_factor * soil_multiplier) else 1

/-- **C5.** In the scan phase, for an occupied slot: the growth multiplier of
a living tree is shade_factor times the soil multiplier (1 on matching soil,
2/5 = 0.4 otherwise) and of a dead tree is 1; a dead tree hence never
reaches the kill threshold; when the multiplier is at or below 1/20 = 0.05
the slot only gets a Kill event pushed and the tree is not grown, and
otherwise the scan proceeds by growing the tree by dt times the multiplier
(no Kill emitted for it). -/
theorem C5_scan_growth_multiplier_kill (ops : FloatOps) (dt_s : ℚ)
    (soil_type : SoilType) (slotIdx : Nat) (acc : ScanAcc) (tree : Tree)
    (htree : acc.s.trees slotIdx = some tree) :
    (tree.is_alive = true →
      growthMultiplier soil_type tree
        = tree.shade_factor
            * (if soil_type = tree.species.soil_preference then 1 else 2/5)) ∧
    (tree.is_alive = false → growthMultiplier soil_type tree = 1) ∧
    (tree.is_alive = false → ¬ growthMultiplier soil_type tree ≤ 1/20) ∧
    (growthMultiplier soil_type tree ≤ 1/20 →
      scanSlot ops dt_s soil_type slotIdx acc
        = { acc with events := pushEvent acc.events (Event.kill slotIdx) }) ∧
    (¬ growthMultiplier soil_type tree ≤ 1/20 →
      scanSlot ops dt_s soil_type slotIdx acc
        = scanSlotGrown ops soil_type slotIdx tree.stage
            (tree.grow (dt_s * growthMultiplier soil_type tree)) acc) := by
  refine ⟨?_, ?_, ?_, ?_, ?_⟩
  · intro halive
    unfold growthMultiplier
    dsimp only
    rw [if_pos halive, one_mul]
  · intro hdead
    simp [growthMultiplier, hdead]
  · intro hdead
    have h1 : growthMultiplier soil_type tree = 1 := by simp [growthMultiplier, hdead]
    rw [h1]
    norm_num
  · intro hgm
    unfold scanSlot
    rw [htree]
    unfold growthMultiplier at hgm
    dsimp only at hgm ⊢
    rw [if_pos hgm]
  · intro hgm
    unfold scanSlot
    rw [htree]
    unfold growthMultiplier at hgm
    dsimp only at hgm ⊢
    rw [if_neg hgm]
    rfl

theorem C5_scan_growth_multiplier_kill_witness :
    (stateWithTree 0 stumpAshTree).trees 0 = some stumpAshTree ∧
    stumpAshTree.is_alive = false ∧
    ¬ growthMultiplier SoilType.Normal stumpAshTree ≤ 1/20 := by
  refine ⟨rfl, rfl, ?_⟩
  exact (C5_scan_growth_multiplier_kill idOps 1 SoilType.Normal 0
    { s := stateWithTree 0 stumpAshTree, events := [], rng := rng0 }
    stumpAshTree rfl).2.2.1 rfl

/-- GameState::iter_trees_on_tile_unchecked: the occupied slots of one
tile bucket, in slot order (the source unwraps each of the first count
slots; an unexpectedly empty slot is skipped). -/
def iterTreesOnTile (s : GameState) (ti : Nat) : List Tree :=
  (List.range (s.per_tile_tree_count ti)).filterMap
    (fun j => s.trees (tree_slot_index ti j))

/-- The light-amount fold of update_grass: starting from 1, each tree on
the tile multiplies in its canopy factor by stage. -/
def tileLight (s : GameState) (ti : Nat) : ℚ :=
  (iterTreesOnTile s ti).foldl
    (fun acc tree =>
      match tree.stage with
      | TreeGrowthStage.Seedling => acc * (1 - 1/100)
      | TreeGrowthStage.Sapling => acc * (1 - 1/10)
      | TreeGrowthStage.Mature | TreeGrowthStage.Old => acc * (1 - 1/2)
      | _ => acc) 1

/-- The grassy-neighbor count of update_grass, translated directly from the
nested neighbor loops (skip when neighbor_x == neighbor_y, then the bounds
check, then the Grass test). -/
def grassyNeighborCount (s : GameState) (x y : Int) : Nat :=
  ([x - 1, x, x + 1]).foldl (fun c nx =>
    ([y - 1, y, y + 1]).foldl (fun c2 ny =>
      if nx = ny then c2
      else if 0 ≤ nx ∧ nx < (GRID_DIM : Int) ∧ 0 ≤ ny ∧ ny < (GRID_DIM : Int) then
        if (s.tiles (tile_index nx ny)).1 = GroundCover.Grass then c2 + 1 else c2
      else c2) c) 0

/-- The regrowth-probability step table of update_grass. -/
def growth_chance (grassy_neighbor_count : Nat) : ℚ :=
  match grassy_neighbor_count with
  | 1 => 1/100000
  | 2 => 5/100000
  | 3 | 4 | 5 => 1/10000
  | 6 | 7 | 8 => 4/10000
  | _ => 0

/-- One cell of update_grass: write the computed light amount, then either
force Dirt (light too low) or, for a currently-Dirt cell, roll for regrowth.
The accumulator carries (new_grass_state, tile_light_amt, rng). -/
def updateGrassCell (s : GameState) (x y : Int)
    (acc : (Nat → GroundCover × SoilType) × (Nat → ℚ) × RngState) :
    (Nat → GroundCover × SoilType) × (Nat → ℚ) × RngState :=
  let ti := tile_index x y
  let light_amt := tileLight s ti
  let lights := Function.update acc.2.1 ti light_amt
  if light_amt ≤ 1/4 then
    (Function.update acc.1 ti (GroundCover.Dirt, (acc.1 ti).2), lights, acc.2.2)
  else
    match (s.tiles ti).1 with
    | GroundCover.Dirt =>
      let grow_chance := growth_chance (grassyNeighborCount s x y)
      let d := acc.2.2.genRange 0 1
      if d.1 > 1 - grow_chance then
        (Function.update acc.1 ti (GroundCover.Grass, (acc.1 ti).2), lights, d.2)
      else (acc.1, lights, d.2)
    | _ => (acc.1, lights, acc.2.2)

/-- GameState::update_grass: x-outer / y-inner sweep of updateGrassCell over
the whole grid, then commit the new cover grid. -/
def GameState.update_grass (s : GameState) (rng : RngState) : GameState × RngState :=
  let res := (List.range GRID_DIM).foldl (fun a x =>
      (List.range GRID_DIM).foldl
        (fun a2 y => updateGrassCell s (Int.ofNat x) (Int.ofNat y) a2) a)
    (s.tiles, s.tile_light_amt, rng)
  ({ s with tiles := res.1, tile_light_amt := res.2.1 }, res.2.2)

/-- Modelled from the claim's wording: the number of cells of the 3x3
neighborhood that are in bounds, are not on the absolute diagonal
(neighbor_x == neighbor_y), and currently hold Grass. -/
def grassSpecNeighbors (s : GameState) (x y : Int) : Nat :=
  (([(x-1, y-1), (x-1, y), (x-1, y+1), (x, y-1), (x, y), (x, y+1),
     (x+1, y-1), (x+1, y), (x+1, y+1)] : List (Int × Int)).countP
    (fun d => decide (¬ d.1 = d.2 ∧ 0 ≤ d.1 ∧ d.1 < (GRID_DIM : Int) ∧ 0 ≤ d.2 ∧
      d.2 < (GRID_DIM : Int) ∧ (s.tiles (tile_index d.1 d.2)).1 = GroundCover.Grass)))

lemma cellStep_eq (s : GameState) (c : Nat) (nx ny : Int) :
    (if nx = ny then c
     else if 0 ≤ nx ∧ nx < (GRID_DIM : Int) ∧ 0 ≤ ny ∧ ny < (GRID_DIM : Int) then
       if (s.tiles (tile_index nx ny)).1 = GroundCover.Grass then c + 1 else c
     else c)
    = c + (if decide (¬ nx = ny ∧ 0 ≤ nx ∧ nx < (GRID_DIM : Int) ∧ 0 ≤ ny ∧
        ny < (GRID_DIM : Int) ∧ (s.tiles (tile_index nx ny)).1 = GroundCover.Grass) = true
      then 1 else 0) := by
  by_cases h1 : nx = ny
  · rw [if_pos h1]
    simp [h1]
  · rw [if_neg h1]
    by_cases h2 : 0 ≤ nx ∧ nx < (GRID_DIM : Int) ∧ 0 ≤ ny ∧ ny < (GRID_DIM : Int)
    · rw [if_pos h2]
      by_cases h3 : (s.tiles (tile_index nx ny)).1 = GroundCover.Grass
      · have hP : ¬ nx = ny ∧ 0 ≤ nx ∧ nx < (GRID_DIM : Int) ∧ 0 ≤ ny ∧
            ny < (GRID_DIM : Int) ∧ (s.tiles (tile_index nx ny)).1 = GroundCover.Grass :=
          ⟨h1, h2.1, h2.2.1, h2.2.2.1, h2.2.2.2, h3⟩
        rw [if_pos h3, decide_eq_true hP]
        simp
      · have hP : ¬ (¬ nx = ny ∧ 0 ≤ nx ∧ nx < (GRID_DIM : Int) ∧ 0 ≤ ny ∧
            ny < (GRID_DIM : Int) ∧ (s.tiles (tile_index nx ny)).1 = GroundCover.Grass) :=
          fun hc => h3 hc.2.2.2.2.2
        rw [if_neg h3, decide_eq_false hP]
        simp
    · have hP : ¬ (¬ nx = ny ∧ 0 ≤ nx ∧ nx < (GRID_DIM : Int) ∧ 0 ≤ ny ∧
          ny < (GRID_DIM : Int) ∧ (s.tiles (tile_index nx ny)).1 = GroundCover.Grass) :=
        fun hc => h2 ⟨hc.2.1, hc.2.2.1, hc.2.2.2.1, hc.2.2.2.2.1⟩
      rw [if_neg h2, decide_eq_false hP]
      simp

lemma grassyNeighborCount_eq_spec (s : GameState) (x y : Int) :
    grassyNeighborCount s x y = grassSpecNeighbors s x y := by
  unfold grassyNeighborCount grassSpecNeighbors
  simp only [List.foldl_cons, List.foldl_nil, List.countP_cons, List.countP_nil]
  dsimp only
  simp only [cellStep_eq]
  omega

/-- **C9.** The ground-cover automaton per cell: the grassy-neighbor count
computed by the source's nested loops equals the claim's count over the 3x3
neighborhood (in bounds, not on the absolute diagonal neighbor_x ==
neighbor_y, currently Grass); and the new cover of the cell is Dirt whenever
its computed light amount is at most 0.25 regardless of prior cover, else —
for a currently-Dirt cell — Grass exactly when the single uniform draw
exceeds 1 minus the step-table probability of that count, else the cover the
cell already had in the new grid. -/
theorem C9_grass_automaton_cell (s : GameState) (x y : Int)
    (acc : (Nat → GroundCover × SoilType) × (Nat → ℚ) × RngState) :
    grassyNeighborCount s x y = grassSpecNeighbors s x y ∧
    ((updateGrassCell s x y acc).1 (tile_index x y)).1
      = (if tileLight s (tile_index x y) ≤ 1/4 then GroundCover.Dirt
         else if (s.tiles (tile_index x y)).1 = GroundCover.Dirt ∧
             acc.2.2.rangeAt acc.2.2.ctr 0 1
               > 1 - growth_chance (grassSpecNeighbors s x y)
           then GroundCover.Grass
         else (acc.1 (tile_index x y)).1) ∧
    (updateGrassCell s x y acc).2.1 (tile_index x y) = tileLight s (tile_index x y) := by
  refine ⟨grassyNeighborCount_eq_spec s x y, ?_, ?_⟩
  · unfold updateGrassCell
    dsimp only
    by_cases hlight : tileLight s (tile_index x y) ≤ 1/4
    · rw [if_pos hlight, if_pos hlight]
      simp [Function.update_same]
    · rw [if_neg hlight, if_neg hlight]
      cases hcov : (s.tiles (tile_index x y)).1 with
      | Grass =>
        have hne : ¬ (GroundCover.Grass = GroundCover.Dirt ∧
            acc.2.2.rangeAt acc.2.2.ctr 0 1
              > 1 - growth_chance (grassSpecNeighbors s x y)) := by
          rintro ⟨hc, -⟩
          exact absurd hc (by simp)
        rw [if_neg hne]
      | Dirt =>
        dsimp only [RngState.genRange]
        by_cases hroll : acc.2.2.rangeAt acc.2.2.ctr 0 1
            > 1 - growth_chance (grassyNeighborCount s x y)
        · rw [if_pos hroll]
          have hr2 : acc.2.2.rangeAt acc.2.2.ctr 0 1
              > 1 - growth_chance (grassSpecNeighbors s x y) := by
            rw [← grassyNeighborCount_eq_spec]
            exact hroll
          rw [if_pos (And.intro rfl hr2)]
          simp [Function.update_same]
        · rw [if_neg hroll]
          have hneg : ¬ (GroundCover.Dirt = GroundCover.Dirt ∧
              acc.2.2.rangeAt acc.2.2.ctr 0 1
                > 1 - growth_chance (grassSpecNeighbors s x y)) := by
            rintro ⟨-, hr⟩
            rw [← grassyNeighborCount_eq_spec] at hr
            exact hroll hr
          rw [if_neg hneg]
  · unfold updateGrassCell
    dsimp only
    by_cases hlight : tileLight s (tile_index x y) ≤ 1/4
    · rw [if_pos hlight]
      exact Function.update_same _ _ _
    · rw [if_neg hlight]
      cases hcov : (s.tiles (tile_index x y)).1 with
      | Grass => exact Function.update_same _ _ _
      | Dirt =>
        dsimp only [RngState.genRange]
        by_cases hroll : acc.2.2.rangeAt acc.2.2.ctr 0 1
            > 1 - growth_chance (grassyNeighborCount s x y)
        · rw [if_pos hroll]
          exact Function.update_same _ _ _
        · rw [if_neg hroll]
          exact Function.update_same _ _ _

end TreeSprites
